import Mathlib

/-!
Verification of the DevTunnel+ gateway core: the shared subdomain validator,
the protocol codec, the tunnel registry (TunnelManager), the request
forwarder, and the inspector store, embedded shallowly as executable Lean
definitions mirroring the JavaScript source, together with theorems about
them.

Modelling conventions:
* JavaScript `Map` objects are association lists with `Map.set` replace-or-append
  semantics; insertion order is preserved, as in the source.
* WebSocket connection objects are identified by a `Nat` key (the registry only
  ever uses them as map keys and for identity comparison).
* Identifier generators (`nanoid`) are modelled by passing the generated string
  into the operation; contracts about generated values (uniqueness, the
  generate-and-retry loop exit condition) become explicit hypotheses.
* Buffers holding request bodies are modelled by their UTF-8 string view
  (`body.toString('utf8')`), whose byte count is `String.utf8ByteSize`;
  base64-encoded response bodies are modelled by their decoded byte list,
  whose length is what `Buffer.from(b, 'base64').length` computes.
-/

namespace DevTunnel

/-- Association-list lookup with first-match semantics, the model of
reading a JavaScript `Map`. -/
def lookupA {κ α : Type} [DecidableEq κ] : List (κ × α) → κ → Option α
  | [], _ => none
  | (k', v) :: t, k => if k' = k then some v else lookupA t k

/-- Association-list insert with `Map.set` semantics: replace the first
binding of the key in place, else append at the end. -/
def insertA {κ α : Type} [DecidableEq κ] : List (κ × α) → κ → α → List (κ × α)
  | [], k, v => [(k, v)]
  | (k', v') :: t, k, v => if k' = k then (k, v) :: t else (k', v') :: insertA t k v

/-- Association-list delete with `Map.delete` semantics: remove the first
binding of the key. -/
def eraseA {κ α : Type} [DecidableEq κ] : List (κ × α) → κ → List (κ × α)
  | [], _ => []
  | (k', v') :: t, k => if k' = k then t else (k', v') :: eraseA t k

theorem lookupA_insertA_self {κ α : Type} [DecidableEq κ] (m : List (κ × α)) (k : κ) (v : α) :
    lookupA (insertA m k v) k = some v := by
  induction m with
  | nil => simp [insertA, lookupA]
  | cons p t ih =>
    obtain ⟨pk, pv⟩ := p
    by_cases h : pk = k
    · simp [insertA, lookupA, h]
    · simp [insertA, lookupA, h, ih]

theorem lookupA_insertA_ne {κ α : Type} [DecidableEq κ] (m : List (κ × α)) (k k' : κ) (v : α)
    (h : k' ≠ k) : lookupA (insertA m k v) k' = lookupA m k' := by
  have h2 : ¬ k = k' := fun e => h e.symm
  induction m with
  | nil => simp [insertA, lookupA, h2]
  | cons p t ih =>
    obtain ⟨pk, pv⟩ := p
    by_cases hk : pk = k
    · have hk' : ¬ pk = k' := by rw [hk]; exact h2
      simp [insertA, lookupA, hk, hk', h2]
    · by_cases hk' : pk = k'
      · simp [insertA, lookupA, hk, hk', h]
      · simp [insertA, lookupA, hk, hk', ih]

theorem lookupA_eraseA_ne {κ α : Type} [DecidableEq κ] (m : List (κ × α)) (k k' : κ)
    (h : k' ≠ k) : lookupA (eraseA m k) k' = lookupA m k' := by
  have h2 : ¬ k = k' := fun e => h e.symm
  induction m with
  | nil => simp [eraseA]
  | cons p t ih =>
    obtain ⟨pk, pv⟩ := p
    by_cases hk : pk = k
    · have hk' : ¬ pk = k' := by rw [hk]; exact h2
      simp [eraseA, lookupA, hk, hk', h2]
    · by_cases hk' : pk = k'
      · simp [eraseA, lookupA, hk, hk', h]
      · simp [eraseA, lookupA, hk, hk', ih]

theorem lookupA_eq_none_iff {κ α : Type} [DecidableEq κ] (m : List (κ × α)) (k : κ) :
    lookupA m k = none ↔ k ∉ m.map Prod.fst := by
  induction m with
  | nil => simp [lookupA]
  | cons p t ih =>
    obtain ⟨pk, pv⟩ := p
    by_cases h : pk = k
    · simp [lookupA, h]
    · simp only [lookupA, if_neg h, List.map_cons, List.mem_cons, ih]
      constructor
      · intro hn hmem
        rcases hmem with hmem | hmem
        · exact h hmem.symm
        · exact hn hmem
      · intro hn hmem
        exact hn (Or.inr hmem)

theorem mem_of_lookupA_eq_some {κ α : Type} [DecidableEq κ] (m : List (κ × α)) (k : κ) (v : α)
    (h : lookupA m k = some v) : (k, v) ∈ m := by
  induction m with
  | nil => simp [lookupA] at h
  | cons p t ih =>
    obtain ⟨pk, pv⟩ := p
    by_cases hk : pk = k
    · rw [show lookupA ((pk, pv) :: t) k = some pv from by simp [lookupA, hk]] at h
      injection h with h
      exact List.mem_cons.mpr (Or.inl (by rw [hk, h]))
    · rw [show lookupA ((pk, pv) :: t) k = lookupA t k from by simp [lookupA, hk]] at h
      exact List.mem_cons_of_mem _ (ih h)

theorem lookupA_eq_some_of_mem {κ α : Type} [DecidableEq κ] (m : List (κ × α)) (k : κ) (v : α)
    (hnd : (m.map Prod.fst).Nodup) (h : (k, v) ∈ m) : lookupA m k = some v := by
  induction m with
  | nil => simp at h
  | cons p t ih =>
    obtain ⟨pk, pv⟩ := p
    simp only [List.map_cons, List.nodup_cons] at hnd
    rcases List.mem_cons.mp h with h1 | h1
    · have hk : pk = k := (Prod.mk.injEq _ _ _ _ ▸ h1.symm).1
      have hv : pv = v := (Prod.mk.injEq _ _ _ _ ▸ h1.symm).2
      simp [lookupA, hk, hv]
    · have hk : ¬ pk = k := by
        intro e
        exact hnd.1 (e ▸ (List.mem_map.mpr ⟨(k, v), h1, rfl⟩))
      simp [lookupA, hk, ih hnd.2 h1]

theorem insertA_of_not_mem {κ α : Type} [DecidableEq κ] (m : List (κ × α)) (k : κ) (v : α)
    (h : k ∉ m.map Prod.fst) : insertA m k v = m ++ [(k, v)] := by
  induction m with
  | nil => simp [insertA]
  | cons p t ih =>
    obtain ⟨pk, pv⟩ := p
    simp only [List.map_cons, List.mem_cons] at h
    push_neg at h
    have hk : ¬ pk = k := fun e => h.1 e.symm
    simp [insertA, hk, ih h.2]

theorem mem_keys_insertA {κ α : Type} [DecidableEq κ] (m : List (κ × α)) (k x : κ) (v : α)
    (h : x ∈ (insertA m k v).map Prod.fst) : x ∈ m.map Prod.fst ∨ x = k := by
  induction m with
  | nil => simp [insertA] at h; simp [h]
  | cons p t ih =>
    obtain ⟨pk, pv⟩ := p
    by_cases hk : pk = k
    · simp only [insertA, if_pos hk, List.map_cons, List.mem_cons] at h
      rcases h with h | h
      · right; exact h
      · left; simp [h]
    · simp only [insertA, if_neg hk, List.map_cons, List.mem_cons] at h
      rcases h with h | h
      · left; simp [h]
      · rcases ih h with h1 | h1
        · left; simp [h1]
        · right; exact h1

theorem keys_insertA_nodup {κ α : Type} [DecidableEq κ] (m : List (κ × α)) (k : κ) (v : α)
    (hnd : (m.map Prod.fst).Nodup) : ((insertA m k v).map Prod.fst).Nodup := by
  induction m with
  | nil => simp [insertA]
  | cons p t ih =>
    obtain ⟨pk, pv⟩ := p
    simp only [List.map_cons, List.nodup_cons] at hnd
    by_cases h : pk = k
    · simp only [insertA, if_pos h, List.map_cons, List.nodup_cons]
      exact ⟨h ▸ hnd.1, hnd.2⟩
    · simp only [insertA, if_neg h, List.map_cons, List.nodup_cons]
      refine ⟨?_, ih hnd.2⟩
      intro hmem
      rcases mem_keys_insertA t k pk v hmem with h1 | h1
      · exact hnd.1 h1
      · exact h h1

theorem keys_eraseA_sublist {κ α : Type} [DecidableEq κ] (m : List (κ × α)) (k : κ) :
    ((eraseA m k).map Prod.fst).Sublist (m.map Prod.fst) := by
  induction m with
  | nil => simp [eraseA]
  | cons p t ih =>
    obtain ⟨pk, pv⟩ := p
    by_cases h : pk = k
    · simp only [eraseA, if_pos h, List.map_cons]
      exact List.sublist_cons_self _ _
    · simp only [eraseA, if_neg h, List.map_cons]
      exact List.Sublist.cons₂ _ ih

theorem keys_eraseA_nodup {κ α : Type} [DecidableEq κ] (m : List (κ × α)) (k : κ)
    (hnd : (m.map Prod.fst).Nodup) : ((eraseA m k).map Prod.fst).Nodup :=
  (keys_eraseA_sublist m k).nodup hnd

theorem lookupA_eraseA_self {κ α : Type} [DecidableEq κ] (m : List (κ × α)) (k : κ)
    (hnd : (m.map Prod.fst).Nodup) : lookupA (eraseA m k) k = none := by
  induction m with
  | nil => simp [eraseA, lookupA]
  | cons p t ih =>
    obtain ⟨pk, pv⟩ := p
    simp only [List.map_cons, List.nodup_cons] at hnd
    by_cases h : pk = k
    · simp only [eraseA, if_pos h]
      rw [lookupA_eq_none_iff]
      exact h ▸ hnd.1
    · simp [eraseA, lookupA, h, ih hnd.2]

theorem mem_eraseA {κ α : Type} [DecidableEq κ] (m : List (κ × α)) (k : κ) (p : κ × α)
    (h : p ∈ eraseA m k) : p ∈ m := by
  induction m with
  | nil => simp [eraseA] at h
  | cons q t ih =>
    obtain ⟨qk, qv⟩ := q
    by_cases hk : qk = k
    · simp only [eraseA, if_pos hk] at h
      exact List.mem_cons_of_mem _ h
    · simp only [eraseA, if_neg hk, List.mem_cons] at h
      rcases h with h | h
      · simp [h]
      · exact List.mem_cons_of_mem _ (ih h)

theorem mem_eraseA_of_ne {κ α : Type} [DecidableEq κ] (m : List (κ × α)) (k : κ) (p : κ × α)
    (hne : p.1 ≠ k) (h : p ∈ m) : p ∈ eraseA m k := by
  induction m with
  | nil => simp at h
  | cons q t ih =>
    obtain ⟨qk, qv⟩ := q
    by_cases hk : qk = k
    · simp only [eraseA, if_pos hk]
      rcases List.mem_cons.mp h with h1 | h1
      · exact absurd (by rw [h1]; exact hk) hne
      · exact h1
    · simp only [eraseA, if_neg hk, List.mem_cons]
      rcases List.mem_cons.mp h with h1 | h1
      · left; exact h1
      · right; exact ih h1

theorem mem_insertA {κ α : Type} [DecidableEq κ] (m : List (κ × α)) (k : κ) (v : α) (p : κ × α)
    (h : p ∈ insertA m k v) : p = (k, v) ∨ p ∈ m := by
  induction m with
  | nil => simp [insertA] at h; simp [h]
  | cons q t ih =>
    obtain ⟨qk, qv⟩ := q
    by_cases hk : qk = k
    · simp only [insertA, if_pos hk, List.mem_cons] at h
      rcases h with h | h
      · left; exact h
      · right; exact List.mem_cons_of_mem _ h
    · simp only [insertA, if_neg hk, List.mem_cons] at h
      rcases h with h | h
      · right; simp [h]
      · rcases ih h with h1 | h1
        · left; exact h1
        · right; exact List.mem_cons_of_mem _ h1

theorem mem_insertA_of_mem_ne {κ α : Type} [DecidableEq κ] (m : List (κ × α)) (k : κ) (v : α)
    (p : κ × α) (hne : p.1 ≠ k) (h : p ∈ m) : p ∈ insertA m k v := by
  induction m with
  | nil => simp at h
  | cons q t ih =>
    obtain ⟨qk, qv⟩ := q
    by_cases hk : qk = k
    · simp only [insertA, if_pos hk, List.mem_cons]
      rcases List.mem_cons.mp h with h1 | h1
      · exact absurd (by rw [h1] at hne ⊢; exact hk) hne
      · right; exact h1
    · simp only [insertA, if_neg hk, List.mem_cons]
      rcases List.mem_cons.mp h with h1 | h1
      · left; exact h1
      · right; exact ih h1

theorem self_mem_insertA {κ α : Type} [DecidableEq κ] (m : List (κ × α)) (k : κ) (v : α) :
    (k, v) ∈ insertA m k v :=
  mem_of_lookupA_eq_some _ _ _ (lookupA_insertA_self m k v)

/-! Shared constants, from `packages/shared/src/constants.js` (`TUNNEL_CONFIG`)
and `packages/shared/src/constants.js` (`ERROR_CODES`). -/

def MAX_TUNNELS_PER_CLIENT : Nat := 10

def SUBDOMAIN_MIN_LENGTH : Nat := 4

def SUBDOMAIN_MAX_LENGTH : Nat := 32

def MAX_STORED_REQUESTS : Nat := 1000

def errInvalidSubdomain : String := "INVALID_SUBDOMAIN"

def errSubdomainTaken : String := "SUBDOMAIN_TAKEN"

def errTunnelLimitExceeded : String := "TUNNEL_LIMIT_EXCEEDED"

def errRequestTimeout : String := "REQUEST_TIMEOUT"

def errRequestFailed : String := "REQUEST_FAILED"

/-! Subdomain validation, from `isValidSubdomain` in the shared utils and
`TUNNEL_CONFIG.SUBDOMAIN_PATTERN`, the regex `[a-z0-9][a-z0-9-]*[a-z0-9]`
anchored at both ends. Characters are classified by code point. -/

/-- Character class `[a-z0-9]` of the subdomain regex. -/
def isSubChar (c : Char) : Bool :=
  (97 ≤ c.toNat && c.toNat ≤ 122) || (48 ≤ c.toNat && c.toNat ≤ 57)

/-- Character class `[a-z0-9-]` of the subdomain regex. -/
def isSubCharDash (c : Char) : Bool :=
  isSubChar c || c.toNat = 45

/-- Matches the tail of the regex after the first character: zero or more
`[a-z0-9-]` followed by a final `[a-z0-9]`. -/
def patternTail : List Char → Bool
  | [] => false
  | [c] => isSubChar c
  | c :: rest => isSubCharDash c && patternTail rest

/-- Test of the anchored regex `^[a-z0-9][a-z0-9-]*[a-z0-9]$`
(`TUNNEL_CONFIG.SUBDOMAIN_PATTERN.test`). -/
def subdomainPatternTest (s : String) : Bool :=
  match s.data with
  | [] => false
  | c :: rest => isSubChar c && patternTail rest

/-- Model of `isValidSubdomain` from the shared utils: falsy strings are
rejected, then the length bounds are checked, then the pattern. -/
def isValidSubdomain (subdomain : String) : Bool :=
  if subdomain.isEmpty then false
  else if subdomain.length < SUBDOMAIN_MIN_LENGTH then false
  else if SUBDOMAIN_MAX_LENGTH < subdomain.length then false
  else subdomainPatternTest subdomain

/-- Declarative reading of the subdomain regex: the character list splits as a
leading `[a-z0-9]`, middle `[a-z0-9-]` characters, and a final `[a-z0-9]`. -/
def SubdomainGrammar (s : String) : Prop :=
  ∃ c0 mid c1, s.data = c0 :: (mid ++ [c1]) ∧ isSubChar c0 = true ∧ isSubChar c1 = true ∧
    ∀ c ∈ mid, isSubCharDash c = true

theorem patternTail_iff (l : List Char) :
    patternTail l = true ↔
      ∃ mid c1, l = mid ++ [c1] ∧ isSubChar c1 = true ∧ ∀ c ∈ mid, isSubCharDash c = true := by
  induction l with
  | nil =>
    simp only [patternTail, Bool.false_eq_true, false_iff]
    rintro ⟨mid, c1, h, -⟩
    exact absurd h (by simp)
  | cons c rest ih =>
    cases rest with
    | nil =>
      simp only [patternTail]
      constructor
      · intro h
        exact ⟨[], c, by simp, h, by simp⟩
      · rintro ⟨mid, c1, h, hc1, hmid⟩
        cases mid with
        | nil => simp at h; rw [h]; exact hc1
        | cons m ms => simp at h
    | cons d rest2 =>
      rw [show patternTail (c :: d :: rest2) = (isSubCharDash c && patternTail (d :: rest2))
        from rfl]
      constructor
      · intro h
        rcases Bool.and_eq_true_iff.mp h with ⟨hc, htail⟩
        rcases ih.mp htail with ⟨mid, c1, he, hc1, hmid⟩
        refine ⟨c :: mid, c1, by simp [he], hc1, ?_⟩
        intro x hx
        rcases List.mem_cons.mp hx with hx | hx
        · rw [hx]; exact hc
        · exact hmid x hx
      · rintro ⟨mid, c1, he, hc1, hmid⟩
        cases mid with
        | nil => simp at he
        | cons m ms =>
          simp only [List.cons_append, List.cons.injEq] at he
          rw [Bool.and_eq_true_iff]
          constructor
          · rw [he.1]; exact hmid m (List.mem_cons_self m ms)
          · exact ih.mpr ⟨ms, c1, he.2, hc1, fun x hx => hmid x (List.mem_cons_of_mem _ hx)⟩

theorem subdomainPatternTest_iff (s : String) :
    subdomainPatternTest s = true ↔ SubdomainGrammar s := by
  unfold subdomainPatternTest SubdomainGrammar
  cases hd : s.data with
  | nil =>
    simp only [Bool.false_eq_true, false_iff]
    rintro ⟨c0, mid, c1, h, -⟩
    simp [hd] at h
  | cons c rest =>
    rw [Bool.and_eq_true_iff, patternTail_iff]
    constructor
    · rintro ⟨hc, mid, c1, he, hc1, hmid⟩
      exact ⟨c, mid, c1, by rw [he], hc, hc1, hmid⟩
    · rintro ⟨c0, mid, c1, he, hc0, hc1, hmid⟩
      injection he with h1 h2
      exact ⟨h1 ▸ hc0, mid, c1, h2, hc1, hmid⟩

theorem isValidSubdomain_iff (s : String) :
    isValidSubdomain s = true ↔
      SUBDOMAIN_MIN_LENGTH ≤ s.length ∧ s.length ≤ SUBDOMAIN_MAX_LENGTH ∧
        SubdomainGrammar s := by
  unfold isValidSubdomain SUBDOMAIN_MIN_LENGTH SUBDOMAIN_MAX_LENGTH
  by_cases he : s.isEmpty = true
  · rw [if_pos he]
    have hlen : s.length = 0 := by
      rw [String.isEmpty_iff] at he
      rw [he]
      rfl
    constructor
    · intro h
      exact absurd h (by simp)
    · rintro ⟨h1, -, -⟩
      exfalso
      omega
  · rw [if_neg he]
    by_cases hlo : s.length < 4
    · rw [if_pos hlo]
      constructor
      · intro h
        exact absurd h (by simp)
      · rintro ⟨h1, -, -⟩
        exfalso
        omega
    · rw [if_neg hlo]
      by_cases hhi : 32 < s.length
      · rw [if_pos hhi]
        constructor
        · intro h
          exact absurd h (by simp)
        · rintro ⟨-, h2, -⟩
          exfalso
          omega
      · rw [if_neg hhi, subdomainPatternTest_iff]
        constructor
        · intro h
          exact ⟨by omega, by omega, h⟩
        · rintro ⟨-, -, h⟩
          exact h

/-- Any character outside the class `[a-z0-9-]` occurring anywhere in the
string defeats the pattern; uppercase letters are the motivating case. -/
theorem subdomainPatternTest_false_of_badChar (s : String) (c : Char)
    (hc : c ∈ s.data) (hbad : isSubCharDash c = false) :
    subdomainPatternTest s = false := by
  rcases Bool.eq_false_or_eq_true (subdomainPatternTest s) with h | h
  swap
  · exact h
  · exfalso
    rcases (subdomainPatternTest_iff s).mp h with ⟨c0, mid, c1, he, hc0, hc1, hmid⟩
    rw [he] at hc
    rcases List.mem_cons.mp hc with h1 | h1
    · rw [h1] at hbad
      simp [isSubCharDash, hc0] at hbad
    · rcases List.mem_append.mp h1 with h2 | h2
      · rw [hmid c h2] at hbad
        exact Bool.true_eq_false ▸ hbad
      · rw [List.mem_singleton.mp h2] at hbad
        simp [isSubCharDash, hc1] at hbad

/-- Uppercase ASCII letters fail the subdomain character classes. -/
theorem isSubCharDash_false_of_upper (c : Char) (h1 : 65 ≤ c.toNat) (h2 : c.toNat ≤ 90) :
    isSubCharDash c = false := by
  rw [Bool.eq_false_iff]
  intro h
  simp only [isSubCharDash, isSubChar, Bool.or_eq_true, Bool.and_eq_true,
    decide_eq_true_eq] at h
  omega

/-- ASCII case-folding, the model of JavaScript `toLowerCase()` (subdomains
and header names in this code are ASCII; non-ASCII characters are left
unchanged, as `toLowerCase` leaves them unchanged on the inputs concerned). -/
def lowerChar (c : Char) : Char :=
  if 65 <= c.toNat && c.toNat <= 90 then Char.ofNat (c.toNat + 32) else c

/-- String form of `lowerChar`. -/
def toLowerString (s : String) : String := ⟨s.data.map lowerChar⟩

/-! Tunnel registry, from `TunnelManager.js`. A `Tunnel` is the record class
of the source with its statistics counters and pending-request table; the
manager state carries the three registry maps. The reserved-subdomain set is
fixed in the constructor. WebSocket handles are `Nat` keys; `nanoid`
generator outputs are passed in as arguments. -/

structure Tunnel where
  tunnelId : String
  subdomain : String
  ws : Nat
  localPort : Nat
  requestCount : Nat := 0
  bytesIn : Nat := 0
  bytesOut : Nat := 0
  pendingRequests : List String := []
deriving DecidableEq

/-- Model of `Tunnel.recordRequest`: bump the request counter and both byte
counters. -/
def Tunnel.recordRequestStats (t : Tunnel) (bIn bOut : Nat) : Tunnel :=
  { t with requestCount := t.requestCount + 1,
           bytesIn := t.bytesIn + bIn,
           bytesOut := t.bytesOut + bOut }

/-- Model of `Tunnel.addPendingRequest` (`Map.set` on the pending table). -/
def Tunnel.addPending (t : Tunnel) (requestId : String) : Tunnel :=
  if requestId ∈ t.pendingRequests then t
  else { t with pendingRequests := t.pendingRequests ++ [requestId] }

/-- Model of `Tunnel.removePendingRequest` (`Map.delete` on the pending
table). -/
def Tunnel.removePending (t : Tunnel) (requestId : String) : Tunnel :=
  { t with pendingRequests := t.pendingRequests.erase requestId }

structure ManagerState where
  tunnelsBySubdomain : List (String × Tunnel)
  tunnelsById : List (String × Tunnel)
  tunnelsByWs : List (Nat × List Tunnel)
deriving DecidableEq

/-- Reserved subdomains fixed in the `TunnelManager` constructor. -/
def reservedSubdomains : List String :=
  ["api", "www", "admin", "dashboard", "app", "mail", "ftp"]

def initialManagerState : ManagerState := ⟨[], [], []⟩

inductive RegResult where
  | ok (tunnel : Tunnel)
  | err (error : String) (code : String)
deriving DecidableEq

/-- Error code carried by a failed registration, if any. -/
def RegResult.errCode : RegResult → Option String
  | .ok _ => none
  | .err _ code => some code

def RegResult.isOk : RegResult → Bool
  | .ok _ => true
  | .err _ _ => false

/-- Tail of `registerTunnel` once the subdomain has been settled: the
per-client limit check, tunnel creation, and linking into the three maps. -/
def linkTunnel (st : ManagerState) (ws : Nat) (subdomain : String) (localPort : Nat)
    (genId : String) : RegResult × ManagerState :=
  let existingTunnels := (lookupA st.tunnelsByWs ws).getD []
  if MAX_TUNNELS_PER_CLIENT ≤ existingTunnels.length then
    (RegResult.err "Maximum tunnels per client exceeded" errTunnelLimitExceeded, st)
  else
    let tunnel : Tunnel := { tunnelId := genId, subdomain := subdomain, ws := ws,
                             localPort := localPort }
    let bySub := insertA st.tunnelsBySubdomain subdomain tunnel
    let byId := insertA st.tunnelsById genId tunnel
    let byWs := insertA st.tunnelsByWs ws (existingTunnels ++ [tunnel])
    (RegResult.ok tunnel, ⟨bySub, byId, byWs⟩)

/-- Model of `TunnelManager.registerTunnel`. A requested subdomain is used
when it is truthy (present and non-empty); otherwise `genSub` stands for the
output of the generate-until-free loop, and `genId` for `generateTunnelId()`. -/
def registerTunnel (st : ManagerState) (ws : Nat) (requestedSubdomain : Option String)
    (localPort : Nat) (genSub genId : String) : RegResult × ManagerState :=
  match requestedSubdomain with
  | some r =>
    if r = "" then linkTunnel st ws genSub localPort genId
    else if ¬ isValidSubdomain r then
      (RegResult.err "Invalid subdomain format" errInvalidSubdomain, st)
    else if toLowerString r ∈ reservedSubdomains then
      (RegResult.err "Subdomain is reserved" errSubdomainTaken, st)
    else if (lookupA st.tunnelsBySubdomain (toLowerString r)).isSome then
      (RegResult.err "Subdomain is already in use" errSubdomainTaken, st)
    else linkTunnel st ws (toLowerString r) localPort genId
  | none => linkTunnel st ws genSub localPort genId

/-- Model of `TunnelManager.getTunnelBySubdomain` (case-folded lookup). -/
def getTunnelBySubdomain (st : ManagerState) (subdomain : String) : Option Tunnel :=
  lookupA st.tunnelsBySubdomain (toLowerString subdomain)

/-- Model of `TunnelManager.getTunnelById`. -/
def getTunnelById (st : ManagerState) (tunnelId : String) : Option Tunnel :=
  lookupA st.tunnelsById tunnelId

inductive ManagerEvent where
  | closedEvent (tunnel : Tunnel) (reason : String)
deriving DecidableEq

/-- Removal of the first tunnel with the given id from a WebSocket's tunnel
list; this models `indexOf` plus `splice(index, 1)`, which remove the one
list entry that is the closed tunnel object (tunnel ids are unique). -/
def removeFirstTunnel : List Tunnel → String → List Tunnel
  | [], _ => []
  | t :: rest, tid => if t.tunnelId = tid then rest else t :: removeFirstTunnel rest tid

/-- Model of `TunnelManager.closeTunnel`. Returns the new state, the emitted
events, and the list of pending-request rejections, each paired with the
error message given to `reject`. -/
def closeTunnel (st : ManagerState) (tunnelId : String) (reason : String) :
    ManagerState × List ManagerEvent × List (String × String) :=
  match lookupA st.tunnelsById tunnelId with
  | none => (st, [], [])
  | some tunnel =>
    let rejections := tunnel.pendingRequests.map (fun rid => (rid, "Tunnel closed"))
    let cleared := { tunnel with pendingRequests := [] }
    let bySub := eraseA st.tunnelsBySubdomain tunnel.subdomain
    let byId := eraseA st.tunnelsById tunnelId
    let byWs :=
      match lookupA st.tunnelsByWs tunnel.ws with
      | none => st.tunnelsByWs
      | some wsTunnels =>
        let remaining := removeFirstTunnel wsTunnels tunnelId
        if remaining = [] then eraseA st.tunnelsByWs tunnel.ws
        else insertA st.tunnelsByWs tunnel.ws remaining
    (⟨bySub, byId, byWs⟩, [ManagerEvent.closedEvent cleared reason], rejections)

/-- Model of `TunnelManager.closeTunnelsForWs`: snapshot the list and close
each tunnel in order. -/
def closeTunnelsForWs (st : ManagerState) (ws : Nat) (reason : String) : ManagerState :=
  ((lookupA st.tunnelsByWs ws).getD []).foldl
    (fun acc t => (closeTunnel acc t.tunnelId reason).1) st

/-- Model of `TunnelManager.closeAll`: snapshot the id keys and close each. -/
def closeAll (st : ManagerState) : ManagerState :=
  (st.tunnelsById.map Prod.fst).foldl
    (fun acc tid => (closeTunnel acc tid "Server shutdown").1) st

/-- One registry operation, for stating invariants over arbitrary operation
sequences. -/
inductive ManagerOp where
  | registerOp (ws : Nat) (requestedSubdomain : Option String) (localPort : Nat)
      (genSub genId : String)
  | closeOp (tunnelId : String) (reason : String)
  | closeForWsOp (ws : Nat) (reason : String)
  | closeAllOp
deriving DecidableEq

def applyOp (st : ManagerState) : ManagerOp → ManagerState
  | .registerOp ws req lp gs gid => (registerTunnel st ws req lp gs gid).2
  | .closeOp tid r => (closeTunnel st tid r).1
  | .closeForWsOp w r => closeTunnelsForWs st w r
  | .closeAllOp => closeAll st

def applyOps (st : ManagerState) : List ManagerOp → ManagerState
  | [] => st
  | op :: rest => applyOps (applyOp st op) rest

/-- Whether the requested subdomain is falsy, so that the generator loop
runs. -/
def usesGenerated : Option String → Bool
  | none => true
  | some r => r = ""

/-- Contract of the identifier generators for one operation against the
current state: `generateTunnelId` returns an id that is not live (the ids
are unique for the process lifetime), and the subdomain generator loop only
exits on a subdomain that is neither live nor reserved. -/
def genOk (st : ManagerState) : ManagerOp → Bool
  | .registerOp _ req _ gs gid =>
    (lookupA st.tunnelsById gid).isNone &&
      (!(usesGenerated req) ||
        ((lookupA st.tunnelsBySubdomain gs).isNone && !(reservedSubdomains.contains gs)))
  | _ => true

/-- Generator contract along a whole operation sequence. -/
def okTrace (st : ManagerState) : List ManagerOp → Bool
  | [] => true
  | op :: rest => genOk st op && okTrace (applyOp st op) rest

/-! The three-index agreement invariant of the registry. -/

/-- Tunnels a WebSocket currently owns, as read through the `byWs` map. -/
def wsTunnels (st : ManagerState) (w : Nat) : List Tunnel :=
  (lookupA st.tunnelsByWs w).getD []

/-- Every binding of the id map is keyed by the tunnel's id and is found again
through the subdomain map and the channel map. -/
def IdIndexOk (st : ManagerState) : Prop :=
  ∀ p ∈ st.tunnelsById, p.1 = p.2.tunnelId ∧
    lookupA st.tunnelsBySubdomain p.2.subdomain = some p.2 ∧ p.2 ∈ wsTunnels st p.2.ws

/-- Every binding of the subdomain map is keyed by the tunnel's subdomain and
is found again through the id map. -/
def SubIndexOk (st : ManagerState) : Prop :=
  ∀ p ∈ st.tunnelsBySubdomain, p.1 = p.2.subdomain ∧
    lookupA st.tunnelsById p.2.tunnelId = some p.2

/-- Every tunnel listed under a channel belongs to that channel and is found
again through the id map. -/
def WsIndexOk (st : ManagerState) : Prop :=
  ∀ q ∈ st.tunnelsByWs, ∀ t ∈ q.2, t.ws = q.1 ∧
    lookupA st.tunnelsById t.tunnelId = some t

/-- Keys of all three maps are duplicate-free, as are the tunnel ids within a
channel's list. -/
def NodupKeys (st : ManagerState) : Prop :=
  (st.tunnelsById.map Prod.fst).Nodup ∧
    (st.tunnelsBySubdomain.map Prod.fst).Nodup ∧
    (st.tunnelsByWs.map Prod.fst).Nodup ∧
    ∀ q ∈ st.tunnelsByWs, (q.2.map Tunnel.tunnelId).Nodup

/-- Full registry invariant: the three indices agree and are duplicate-free. -/
def GoodState (st : ManagerState) : Prop :=
  IdIndexOk st ∧ SubIndexOk st ∧ WsIndexOk st ∧ NodupKeys st

instance (st : ManagerState) : Decidable (GoodState st) := by
  unfold GoodState IdIndexOk SubIndexOk WsIndexOk NodupKeys wsTunnels
  infer_instance

theorem removeFirstTunnel_sublist (l : List Tunnel) (tid : String) :
    (removeFirstTunnel l tid).Sublist l := by
  induction l with
  | nil => simp [removeFirstTunnel]
  | cons t rest ih =>
    by_cases h : t.tunnelId = tid
    · simp only [removeFirstTunnel, if_pos h]
      exact List.sublist_cons_self _ _
    · simp only [removeFirstTunnel, if_neg h]
      exact List.Sublist.cons₂ _ ih

theorem mem_removeFirstTunnel (l : List Tunnel) (tid : String) (t : Tunnel)
    (h : t ∈ removeFirstTunnel l tid) : t ∈ l :=
  (removeFirstTunnel_sublist l tid).mem h

theorem mem_removeFirstTunnel_ne (l : List Tunnel) (tid : String) (t : Tunnel)
    (hnd : (l.map Tunnel.tunnelId).Nodup) (h : t ∈ removeFirstTunnel l tid) :
    t.tunnelId ≠ tid := by
  induction l with
  | nil => simp [removeFirstTunnel] at h
  | cons u rest ih =>
    simp only [List.map_cons, List.nodup_cons] at hnd
    by_cases hu : u.tunnelId = tid
    · simp only [removeFirstTunnel, if_pos hu] at h
      intro e
      exact hnd.1 (hu ▸ e ▸ List.mem_map.mpr ⟨t, h, rfl⟩)
    · simp only [removeFirstTunnel, if_neg hu, List.mem_cons] at h
      rcases h with h | h
      · rw [h]; exact hu
      · exact ih hnd.2 h

theorem mem_removeFirstTunnel_of_ne (l : List Tunnel) (tid : String) (t : Tunnel)
    (hne : t.tunnelId ≠ tid) (h : t ∈ l) : t ∈ removeFirstTunnel l tid := by
  induction l with
  | nil => simp at h
  | cons u rest ih =>
    by_cases hu : u.tunnelId = tid
    · simp only [removeFirstTunnel, if_pos hu]
      rcases List.mem_cons.mp h with h1 | h1
      · exact absurd (h1 ▸ hu) hne
      · exact h1
    · simp only [removeFirstTunnel, if_neg hu, List.mem_cons]
      rcases List.mem_cons.mp h with h1 | h1
      · left; exact h1
      · right; exact ih h1

theorem mem_insertA_strong {κ α : Type} [DecidableEq κ] (m : List (κ × α)) (k : κ) (v : α)
    (p : κ × α) (hnd : (m.map Prod.fst).Nodup) (h : p ∈ insertA m k v) :
    p = (k, v) ∨ (p ∈ m ∧ p.1 ≠ k) := by
  induction m with
  | nil => simp [insertA] at h; left; simp [h]
  | cons q t ih =>
    obtain ⟨qk, qv⟩ := q
    simp only [List.map_cons, List.nodup_cons] at hnd
    by_cases hk : qk = k
    · simp only [insertA, if_pos hk, List.mem_cons] at h
      rcases h with h | h
      · left; exact h
      · right
        refine ⟨List.mem_cons_of_mem _ h, ?_⟩
        intro e
        exact hnd.1 (hk ▸ e ▸ List.mem_map.mpr ⟨p, h, rfl⟩)
    · simp only [insertA, if_neg hk, List.mem_cons] at h
      rcases h with h | h
      · right
        exact ⟨List.mem_cons.mpr (Or.inl h), by rw [h]; exact hk⟩
      · rcases ih hnd.2 h with h1 | h1
        · left; exact h1
        · right; exact ⟨List.mem_cons_of_mem _ h1.1, h1.2⟩

theorem mem_eraseA_strong {κ α : Type} [DecidableEq κ] (m : List (κ × α)) (k : κ)
    (p : κ × α) (hnd : (m.map Prod.fst).Nodup) (h : p ∈ eraseA m k) :
    p ∈ m ∧ p.1 ≠ k := by
  induction m with
  | nil => simp [eraseA] at h
  | cons q t ih =>
    obtain ⟨qk, qv⟩ := q
    simp only [List.map_cons, List.nodup_cons] at hnd
    by_cases hk : qk = k
    · simp only [eraseA, if_pos hk] at h
      refine ⟨List.mem_cons_of_mem _ h, ?_⟩
      intro e
      exact hnd.1 (hk ▸ e ▸ List.mem_map.mpr ⟨p, h, rfl⟩)
    · simp only [eraseA, if_neg hk, List.mem_cons] at h
      rcases h with h | h
      · exact ⟨List.mem_cons.mpr (Or.inl h), by rw [h]; exact hk⟩
      · have := ih hnd.2 h
        exact ⟨List.mem_cons_of_mem _ this.1, this.2⟩

theorem linkTunnel_preserves (st : ManagerState) (ws : Nat) (s : String) (lp : Nat)
    (gid : String) (hg : GoodState st)
    (hsub : lookupA st.tunnelsBySubdomain s = none)
    (hid : lookupA st.tunnelsById gid = none) :
    GoodState (linkTunnel st ws s lp gid).2 := by
  obtain ⟨hIdx, hSub, hWs, hNid, hNsub, hNws, hNlist⟩ := hg
  unfold linkTunnel
  by_cases hcap : MAX_TUNNELS_PER_CLIENT ≤ ((lookupA st.tunnelsByWs ws).getD []).length
  · rw [if_pos hcap]
    exact ⟨hIdx, hSub, hWs, hNid, hNsub, hNws, hNlist⟩
  · rw [if_neg hcap]
    set lst := (lookupA st.tunnelsByWs ws).getD [] with hlst
    set tun : Tunnel := { tunnelId := gid, subdomain := s, ws := ws, localPort := lp }
      with htun
    have hsubfresh : s ∉ st.tunnelsBySubdomain.map Prod.fst :=
      (lookupA_eq_none_iff _ _).mp hsub
    have hidfresh : gid ∉ st.tunnelsById.map Prod.fst :=
      (lookupA_eq_none_iff _ _).mp hid
    have hSubApp : insertA st.tunnelsBySubdomain s tun =
        st.tunnelsBySubdomain ++ [(s, tun)] := insertA_of_not_mem _ _ _ hsubfresh
    have hIdApp : insertA st.tunnelsById gid tun =
        st.tunnelsById ++ [(gid, tun)] := insertA_of_not_mem _ _ _ hidfresh
    -- lookups in the new state
    have hlook_sub : ∀ x, x ≠ s →
        lookupA (insertA st.tunnelsBySubdomain s tun) x = lookupA st.tunnelsBySubdomain x :=
      fun x hx => lookupA_insertA_ne _ _ _ _ hx
    have hlook_id : ∀ x, x ≠ gid →
        lookupA (insertA st.tunnelsById gid tun) x = lookupA st.tunnelsById x :=
      fun x hx => lookupA_insertA_ne _ _ _ _ hx
    have hlook_ws_ne : ∀ w, w ≠ ws →
        lookupA (insertA st.tunnelsByWs ws (lst ++ [tun])) w = lookupA st.tunnelsByWs w :=
      fun w hw => lookupA_insertA_ne _ _ _ _ hw
    have hlook_ws_self :
        lookupA (insertA st.tunnelsByWs ws (lst ++ [tun])) ws = some (lst ++ [tun]) :=
      lookupA_insertA_self _ _ _
    -- ids found through the id map are never the fresh gid
    have hid_ne : ∀ t : Tunnel, lookupA st.tunnelsById t.tunnelId = some t →
        t.tunnelId ≠ gid := by
      intro t hl e
      rw [e, hid] at hl
      exact Option.noConfusion hl
    refine ⟨?_, ?_, ?_, ?_, ?_, ?_, ?_⟩
    · -- IdIndexOk
      intro p hp
      rw [show (⟨insertA st.tunnelsBySubdomain s tun, insertA st.tunnelsById gid tun,
          insertA st.tunnelsByWs ws (lst ++ [tun])⟩ : ManagerState).tunnelsById =
          insertA st.tunnelsById gid tun from rfl, hIdApp] at hp
      rcases List.mem_append.mp hp with hp | hp
      · obtain ⟨he, hsu, hme⟩ := hIdx p hp
        refine ⟨he, ?_, ?_⟩
        · have hne : p.2.subdomain ≠ s := by
            intro e
            rw [e, hsub] at hsu
            exact Option.noConfusion hsu
          rw [show (⟨insertA st.tunnelsBySubdomain s tun, insertA st.tunnelsById gid tun,
              insertA st.tunnelsByWs ws (lst ++ [tun])⟩ : ManagerState).tunnelsBySubdomain =
              insertA st.tunnelsBySubdomain s tun from rfl, hlook_sub _ hne]
          exact hsu
        · unfold wsTunnels at hme ⊢
          by_cases hw : p.2.ws = ws
          · rw [show (⟨insertA st.tunnelsBySubdomain s tun, insertA st.tunnelsById gid tun,
                insertA st.tunnelsByWs ws (lst ++ [tun])⟩ : ManagerState).tunnelsByWs =
                insertA st.tunnelsByWs ws (lst ++ [tun]) from rfl, hw, hlook_ws_self]
            rw [hw, ← hlst] at hme
            exact List.mem_append.mpr (Or.inl hme)
          · rw [show (⟨insertA st.tunnelsBySubdomain s tun, insertA st.tunnelsById gid tun,
                insertA st.tunnelsByWs ws (lst ++ [tun])⟩ : ManagerState).tunnelsByWs =
                insertA st.tunnelsByWs ws (lst ++ [tun]) from rfl, hlook_ws_ne _ hw]
            exact hme
      · rw [List.mem_singleton.mp hp]
        refine ⟨rfl, ?_, ?_⟩
        · rw [show (⟨insertA st.tunnelsBySubdomain s tun, insertA st.tunnelsById gid tun,
            insertA st.tunnelsByWs ws (lst ++ [tun])⟩ : ManagerState).tunnelsBySubdomain =
            insertA st.tunnelsBySubdomain s tun from rfl]
          exact lookupA_insertA_self _ _ _
        · unfold wsTunnels
          rw [show (⟨insertA st.tunnelsBySubdomain s tun, insertA st.tunnelsById gid tun,
            insertA st.tunnelsByWs ws (lst ++ [tun])⟩ : ManagerState).tunnelsByWs =
            insertA st.tunnelsByWs ws (lst ++ [tun]) from rfl, hlook_ws_self]
          exact List.mem_append.mpr (Or.inr (List.mem_singleton.mpr rfl))
    · -- SubIndexOk
      intro p hp
      rw [show (⟨insertA st.tunnelsBySubdomain s tun, insertA st.tunnelsById gid tun,
          insertA st.tunnelsByWs ws (lst ++ [tun])⟩ : ManagerState).tunnelsBySubdomain =
          insertA st.tunnelsBySubdomain s tun from rfl, hSubApp] at hp
      rcases List.mem_append.mp hp with hp | hp
      · obtain ⟨he, hlu⟩ := hSub p hp
        refine ⟨he, ?_⟩
        rw [show (⟨insertA st.tunnelsBySubdomain s tun, insertA st.tunnelsById gid tun,
            insertA st.tunnelsByWs ws (lst ++ [tun])⟩ : ManagerState).tunnelsById =
            insertA st.tunnelsById gid tun from rfl, hlook_id _ (hid_ne _ hlu)]
        exact hlu
      · rw [List.mem_singleton.mp hp]
        refine ⟨rfl, ?_⟩
        rw [show (⟨insertA st.tunnelsBySubdomain s tun, insertA st.tunnelsById gid tun,
            insertA st.tunnelsByWs ws (lst ++ [tun])⟩ : ManagerState).tunnelsById =
            insertA st.tunnelsById gid tun from rfl]
        exact lookupA_insertA_self _ _ _
    · -- WsIndexOk
      intro q hq t ht
      rw [show (⟨insertA st.tunnelsBySubdomain s tun, insertA st.tunnelsById gid tun,
          insertA st.tunnelsByWs ws (lst ++ [tun])⟩ : ManagerState).tunnelsByWs =
          insertA st.tunnelsByWs ws (lst ++ [tun]) from rfl] at hq
      have hbyId : ∀ u : Tunnel, lookupA st.tunnelsById u.tunnelId = some u →
          lookupA (insertA st.tunnelsById gid tun) u.tunnelId = some u := by
        intro u hu
        rw [hlook_id _ (hid_ne _ hu)]
        exact hu
      rcases mem_insertA _ _ _ _ hq with hq1 | hq1
      · rw [hq1] at ht ⊢
        rcases List.mem_append.mp ht with ht1 | ht1
        · -- old member of this channel's list
          have hq2 : lst = wsTunnels st ws := rfl
          rcases Option.eq_none_or_eq_some (lookupA st.tunnelsByWs ws) with hnone | ⟨l0, hsome⟩
          · exfalso
            unfold wsTunnels at hq2
            rw [hnone] at hq2
            rw [hq2] at ht1
            simp at ht1
          · have hl0 : lst = l0 := by
              unfold lst
              rw [hsome]
              rfl
            have := hWs (ws, l0) (mem_of_lookupA_eq_some _ _ _ hsome) t (hl0 ▸ ht1)
            exact ⟨this.1, hbyId t this.2⟩
        · rw [List.mem_singleton.mp ht1]
          refine ⟨rfl, ?_⟩
          rw [show tun.tunnelId = gid from rfl]
          exact lookupA_insertA_self _ _ _
      · have := hWs q hq1 t ht
        exact ⟨this.1, hbyId t this.2⟩
    · -- id keys nodup
      exact keys_insertA_nodup _ _ _ hNid
    · exact keys_insertA_nodup _ _ _ hNsub
    · exact keys_insertA_nodup _ _ _ hNws
    · -- tunnel ids within each channel list are nodup
      intro q hq
      rcases mem_insertA _ _ _ _ hq with hq1 | hq1
      · rw [hq1]
        simp only [List.map_append, List.map_cons, List.map_nil]
        rw [List.nodup_append]
        refine ⟨?_, by simp, ?_⟩
        · rcases Option.eq_none_or_eq_some (lookupA st.tunnelsByWs ws) with hnone | ⟨l0, hsome⟩
          · unfold lst
            rw [hnone]
            simp
          · have hl0 : lst = l0 := by
              unfold lst
              rw [hsome]
              rfl
            rw [hl0]
            exact hNlist (ws, l0) (mem_of_lookupA_eq_some _ _ _ hsome)
        · intro x hx
          rcases Option.eq_none_or_eq_some (lookupA st.tunnelsByWs ws) with hnone | ⟨l0, hsome⟩
          · exfalso
            unfold lst at hx
            rw [hnone] at hx
            simp at hx
          · have hl0 : lst = l0 := by
              unfold lst
              rw [hsome]
              rfl
            rw [hl0] at hx
            rcases List.mem_map.mp hx with ⟨u, hu, hux⟩
            have := hWs (ws, l0) (mem_of_lookupA_eq_some _ _ _ hsome) u hu
            simp only [List.mem_cons, List.not_mem_nil, or_false]
            intro e
            apply hid_ne u this.2
            rw [hux, e]
      · exact hNlist q hq1

theorem closeTunnel_eq_of_found (st : ManagerState) (tid reason : String) (tunnel : Tunnel)
    (hlook : lookupA st.tunnelsById tid = some tunnel) (l0 : List Tunnel)
    (hsome : lookupA st.tunnelsByWs tunnel.ws = some l0) :
    closeTunnel st tid reason =
      (⟨eraseA st.tunnelsBySubdomain tunnel.subdomain, eraseA st.tunnelsById tid,
        if removeFirstTunnel l0 tid = [] then eraseA st.tunnelsByWs tunnel.ws
        else insertA st.tunnelsByWs tunnel.ws (removeFirstTunnel l0 tid)⟩,
       [ManagerEvent.closedEvent { tunnel with pendingRequests := [] } reason],
       tunnel.pendingRequests.map (fun rid => (rid, "Tunnel closed"))) := by
  simp only [closeTunnel, hlook, hsome]

theorem closeTunnel_preserves (st : ManagerState) (tid reason : String) (hg : GoodState st) :
    GoodState (closeTunnel st tid reason).1 := by
  obtain ⟨hIdx, hSub, hWs, hNid, hNsub, hNws, hNlist⟩ := hg
  rcases Option.eq_none_or_eq_some (lookupA st.tunnelsById tid) with hlook | ⟨tunnel, hlook⟩
  · simp only [closeTunnel, hlook]
    exact ⟨hIdx, hSub, hWs, hNid, hNsub, hNws, hNlist⟩
  · have hmemId : (tid, tunnel) ∈ st.tunnelsById := mem_of_lookupA_eq_some _ _ _ hlook
    obtain ⟨hkey, hsubLook, hwsMem⟩ := hIdx (tid, tunnel) hmemId
    rcases Option.eq_none_or_eq_some (lookupA st.tunnelsByWs tunnel.ws)
      with hwnone | ⟨l0, hsome⟩
    · exfalso
      unfold wsTunnels at hwsMem
      rw [hwnone] at hwsMem
      simp at hwsMem
    · have hl0mem : tunnel ∈ l0 := by
        unfold wsTunnels at hwsMem
        rw [hsome] at hwsMem
        exact hwsMem
      have hl0pair : (tunnel.ws, l0) ∈ st.tunnelsByWs := mem_of_lookupA_eq_some _ _ _ hsome
      have hl0nd : (l0.map Tunnel.tunnelId).Nodup := hNlist _ hl0pair
      -- auxiliary distinctness facts
      have hsub_ne_of_idmem : ∀ p : String × Tunnel, p ∈ st.tunnelsById → p.1 ≠ tid →
          p.2.subdomain ≠ tunnel.subdomain := by
        intro p hp hne e
        have h1 := (hIdx p hp).2.1
        rw [e, hsubLook] at h1
        injection h1 with h1
        apply hne
        rw [(hIdx p hp).1, ← h1]
        exact hkey.symm
      have hid_ne_of_submem : ∀ p : String × Tunnel, p ∈ st.tunnelsBySubdomain →
          p.1 ≠ tunnel.subdomain → p.2.tunnelId ≠ tid := by
        intro p hp hne e
        have h1 := (hSub p hp).2
        rw [e, hlook] at h1
        injection h1 with h1
        apply hne
        rw [(hSub p hp).1, ← h1]
      have hws_t_ne : ∀ q : Nat × List Tunnel, q ∈ st.tunnelsByWs → q.1 ≠ tunnel.ws →
          ∀ t ∈ q.2, t.tunnelId ≠ tid := by
        intro q hq hne t ht e
        have h1 := (hWs q hq t ht).2
        rw [e, hlook] at h1
        injection h1 with h1
        apply hne
        rw [← (hWs q hq t ht).1, ← h1]
      have hid_mem_ne : ∀ p : String × Tunnel, p ∈ st.tunnelsById → p.1 ≠ tid →
          p.2.tunnelId ≠ tid := by
        intro p hp hne
        rw [← (hIdx p hp).1]
        exact hne
      rw [closeTunnel_eq_of_found st tid reason tunnel hlook l0 hsome]
      by_cases hrem : removeFirstTunnel l0 tid = []
      · rw [if_pos hrem]
        refine ⟨?_, ?_, ?_, ?_, ?_, ?_, ?_⟩
        · -- IdIndexOk
          intro p hp
          obtain ⟨hp1, hp2⟩ := mem_eraseA_strong _ _ _ hNid hp
          obtain ⟨hpe, hpsub, hpws⟩ := hIdx p hp1
          refine ⟨hpe, ?_, ?_⟩
          · rw [show (⟨eraseA st.tunnelsBySubdomain tunnel.subdomain, eraseA st.tunnelsById tid,
              eraseA st.tunnelsByWs tunnel.ws⟩ : ManagerState).tunnelsBySubdomain =
              eraseA st.tunnelsBySubdomain tunnel.subdomain from rfl,
              lookupA_eraseA_ne _ _ _ (hsub_ne_of_idmem p hp1 hp2)]
            exact hpsub
          · have hwne : p.2.ws ≠ tunnel.ws := by
              intro e
              have hmem0 : p.2 ∈ l0 := by
                unfold wsTunnels at hpws
                rw [e, hsome] at hpws
                exact hpws
              have : p.2 ∈ removeFirstTunnel l0 tid :=
                mem_removeFirstTunnel_of_ne _ _ _ (hid_mem_ne p hp1 hp2) hmem0
              rw [hrem] at this
              simp at this
            unfold wsTunnels at hpws ⊢
            rw [show (⟨eraseA st.tunnelsBySubdomain tunnel.subdomain, eraseA st.tunnelsById tid,
              eraseA st.tunnelsByWs tunnel.ws⟩ : ManagerState).tunnelsByWs =
              eraseA st.tunnelsByWs tunnel.ws from rfl,
              lookupA_eraseA_ne _ _ _ hwne]
            exact hpws
        · -- SubIndexOk
          intro p hp
          obtain ⟨hp1, hp2⟩ := mem_eraseA_strong _ _ _ hNsub hp
          obtain ⟨hpe, hpid⟩ := hSub p hp1
          refine ⟨hpe, ?_⟩
          rw [show (⟨eraseA st.tunnelsBySubdomain tunnel.subdomain, eraseA st.tunnelsById tid,
            eraseA st.tunnelsByWs tunnel.ws⟩ : ManagerState).tunnelsById =
            eraseA st.tunnelsById tid from rfl,
            lookupA_eraseA_ne _ _ _ (hid_ne_of_submem p hp1 hp2)]
          exact hpid
        · -- WsIndexOk
          intro q hq t ht
          obtain ⟨hq1, hq2⟩ := mem_eraseA_strong _ _ _ hNws hq
          obtain ⟨ht1, ht2⟩ := hWs q hq1 t ht
          refine ⟨ht1, ?_⟩
          rw [show (⟨eraseA st.tunnelsBySubdomain tunnel.subdomain, eraseA st.tunnelsById tid,
            eraseA st.tunnelsByWs tunnel.ws⟩ : ManagerState).tunnelsById =
            eraseA st.tunnelsById tid from rfl,
            lookupA_eraseA_ne _ _ _ (hws_t_ne q hq1 hq2 t ht)]
          exact ht2
        · exact keys_eraseA_nodup _ _ hNid
        · exact keys_eraseA_nodup _ _ hNsub
        · exact keys_eraseA_nodup _ _ hNws
        · intro q hq
          exact hNlist q (mem_eraseA _ _ _ hq)
      · rw [if_neg hrem]
        refine ⟨?_, ?_, ?_, ?_, ?_, ?_, ?_⟩
        · -- IdIndexOk
          intro p hp
          obtain ⟨hp1, hp2⟩ := mem_eraseA_strong _ _ _ hNid hp
          obtain ⟨hpe, hpsub, hpws⟩ := hIdx p hp1
          refine ⟨hpe, ?_, ?_⟩
          · rw [show (⟨eraseA st.tunnelsBySubdomain tunnel.subdomain, eraseA st.tunnelsById tid,
              insertA st.tunnelsByWs tunnel.ws (removeFirstTunnel l0 tid)⟩ :
              ManagerState).tunnelsBySubdomain =
              eraseA st.tunnelsBySubdomain tunnel.subdomain from rfl,
              lookupA_eraseA_ne _ _ _ (hsub_ne_of_idmem p hp1 hp2)]
            exact hpsub
          · unfold wsTunnels at hpws ⊢
            rw [show (⟨eraseA st.tunnelsBySubdomain tunnel.subdomain, eraseA st.tunnelsById tid,
              insertA st.tunnelsByWs tunnel.ws (removeFirstTunnel l0 tid)⟩ :
              ManagerState).tunnelsByWs =
              insertA st.tunnelsByWs tunnel.ws (removeFirstTunnel l0 tid) from rfl]
            by_cases hw : p.2.ws = tunnel.ws
            · rw [hw, lookupA_insertA_self]
              have hmem0 : p.2 ∈ l0 := by
                rw [hw, hsome] at hpws
                exact hpws
              exact mem_removeFirstTunnel_of_ne _ _ _ (hid_mem_ne p hp1 hp2) hmem0
            · rw [lookupA_insertA_ne _ _ _ _ hw]
              exact hpws
        · -- SubIndexOk
          intro p hp
          obtain ⟨hp1, hp2⟩ := mem_eraseA_strong _ _ _ hNsub hp
          obtain ⟨hpe, hpid⟩ := hSub p hp1
          refine ⟨hpe, ?_⟩
          rw [show (⟨eraseA st.tunnelsBySubdomain tunnel.subdomain, eraseA st.tunnelsById tid,
            insertA st.tunnelsByWs tunnel.ws (removeFirstTunnel l0 tid)⟩ :
            ManagerState).tunnelsById = eraseA st.tunnelsById tid from rfl,
            lookupA_eraseA_ne _ _ _ (hid_ne_of_submem p hp1 hp2)]
          exact hpid
        · -- WsIndexOk
          intro q hq t ht
          rcases mem_insertA_strong _ _ _ _ hNws hq with hq1 | ⟨hq1, hq2⟩
          · rw [hq1] at ht ⊢
            have htl0 : t ∈ l0 := mem_removeFirstTunnel _ _ _ ht
            have htne : t.tunnelId ≠ tid := mem_removeFirstTunnel_ne _ _ _ hl0nd ht
            obtain ⟨ht1, ht2⟩ := hWs (tunnel.ws, l0) hl0pair t htl0
            refine ⟨ht1, ?_⟩
            rw [show (⟨eraseA st.tunnelsBySubdomain tunnel.subdomain, eraseA st.tunnelsById tid,
              insertA st.tunnelsByWs tunnel.ws (removeFirstTunnel l0 tid)⟩ :
              ManagerState).tunnelsById = eraseA st.tunnelsById tid from rfl,
              lookupA_eraseA_ne _ _ _ htne]
            exact ht2
          · obtain ⟨ht1, ht2⟩ := hWs q hq1 t ht
            refine ⟨ht1, ?_⟩
            rw [show (⟨eraseA st.tunnelsBySubdomain tunnel.subdomain, eraseA st.tunnelsById tid,
              insertA st.tunnelsByWs tunnel.ws (removeFirstTunnel l0 tid)⟩ :
              ManagerState).tunnelsById = eraseA st.tunnelsById tid from rfl,
              lookupA_eraseA_ne _ _ _ (hws_t_ne q hq1 hq2 t ht)]
            exact ht2
        · exact keys_eraseA_nodup _ _ hNid
        · exact keys_eraseA_nodup _ _ hNsub
        · exact keys_insertA_nodup _ _ _ hNws
        · intro q hq
          rcases mem_insertA_strong _ _ _ _ hNws hq with hq1 | ⟨hq1, -⟩
          · rw [hq1]
            exact ((removeFirstTunnel_sublist l0 tid).map Tunnel.tunnelId).nodup hl0nd
          · exact hNlist q hq1

theorem registerTunnel_preserves (st : ManagerState) (ws : Nat) (req : Option String)
    (lp : Nat) (gs gid : String) (hg : GoodState st)
    (hid : lookupA st.tunnelsById gid = none)
    (hgen : usesGenerated req = true →
      lookupA st.tunnelsBySubdomain gs = none ∧ gs ∉ reservedSubdomains) :
    GoodState (registerTunnel st ws req lp gs gid).2 := by
  match req with
  | none =>
    have h := hgen rfl
    exact linkTunnel_preserves st ws gs lp gid hg h.1 hid
  | some r =>
    by_cases hr : r = ""
    · have h := hgen (by simp [usesGenerated, hr])
      rw [show registerTunnel st ws (some r) lp gs gid = linkTunnel st ws gs lp gid
        from by simp [registerTunnel, hr]]
      exact linkTunnel_preserves st ws gs lp gid hg h.1 hid
    · by_cases hv : isValidSubdomain r
      · by_cases hres : toLowerString r ∈ reservedSubdomains
        · rw [show registerTunnel st ws (some r) lp gs gid =
            (RegResult.err "Subdomain is reserved" errSubdomainTaken, st)
            from by simp [registerTunnel, hr, hv, hres]]
          exact hg
        · by_cases hlive : (lookupA st.tunnelsBySubdomain (toLowerString r)).isSome
          · rw [show registerTunnel st ws (some r) lp gs gid =
              (RegResult.err "Subdomain is already in use" errSubdomainTaken, st)
              from by simp [registerTunnel, hr, hv, hres, hlive]]
            exact hg
          · have hnone : lookupA st.tunnelsBySubdomain (toLowerString r) = none :=
              Option.not_isSome_iff_eq_none.mp hlive
            rw [show registerTunnel st ws (some r) lp gs gid =
              linkTunnel st ws (toLowerString r) lp gid
              from by simp [registerTunnel, hr, hv, hres, hlive]]
            exact linkTunnel_preserves st ws (toLowerString r) lp gid hg hnone hid
      · rw [show registerTunnel st ws (some r) lp gs gid =
          (RegResult.err "Invalid subdomain format" errInvalidSubdomain, st)
          from by simp [registerTunnel, hr, hv]]
        exact hg

theorem foldl_close_preserves {β : Type} (f : β → String) (reason : String) (l : List β)
    (st : ManagerState) (hg : GoodState st) :
    GoodState (l.foldl (fun acc x => (closeTunnel acc (f x) reason).1) st) := by
  induction l generalizing st with
  | nil => exact hg
  | cons x rest ih => exact ih _ (closeTunnel_preserves _ _ _ hg)

theorem applyOp_preserves (st : ManagerState) (op : ManagerOp) (hg : GoodState st)
    (hok : genOk st op = true) : GoodState (applyOp st op) := by
  match op with
  | .registerOp ws req lp gs gid =>
    simp only [genOk, Bool.and_eq_true, Bool.or_eq_true, Option.isNone_iff_eq_none,
      Bool.not_eq_eq_eq_not, Bool.not_true] at hok
    refine registerTunnel_preserves st ws req lp gs gid hg hok.1 ?_
    intro hu
    rcases hok.2 with h | h
    · rw [hu] at h
      exact absurd h (by simp)
    · refine ⟨h.1, ?_⟩
      have hnc : ¬ gs ∈ reservedSubdomains := by simpa using h.2
      exact hnc
  | .closeOp tid r => exact closeTunnel_preserves st tid r hg
  | .closeForWsOp w r => exact foldl_close_preserves Tunnel.tunnelId r _ st hg
  | .closeAllOp => exact foldl_close_preserves (fun tid => tid) "Server shutdown" _ st hg

theorem goodState_initial : GoodState initialManagerState := by
  refine ⟨?_, ?_, ?_, ?_, ?_, ?_, ?_⟩ <;> simp [IdIndexOk, SubIndexOk, WsIndexOk,
    initialManagerState]

theorem applyOps_good (st : ManagerState) (ops : List ManagerOp) (hg : GoodState st)
    (hok : okTrace st ops = true) : GoodState (applyOps st ops) := by
  induction ops generalizing st with
  | nil => exact hg
  | cons op rest ih =>
    simp only [okTrace, Bool.and_eq_true] at hok
    exact ih _ (applyOp_preserves st op hg hok.1) hok.2

/-- C1: for a call to `registerTunnel` with a (truthy) requested subdomain,
a grammar failure yields an `INVALID_SUBDOMAIN` error, a reserved or live
subdomain yields a `SUBDOMAIN_TAKEN` error, and in every such failure case
the state — all three registry maps — is returned unchanged. -/
theorem c1_requested_failures_no_mutation (st : ManagerState) (ws lp : Nat)
    (gs gid r : String) (hr : r ≠ "")
    (hfail : isValidSubdomain r = false ∨ toLowerString r ∈ reservedSubdomains ∨
      (lookupA st.tunnelsBySubdomain (toLowerString r)).isSome = true) :
    (registerTunnel st ws (some r) lp gs gid).2 = st ∧
      (isValidSubdomain r = false →
        (registerTunnel st ws (some r) lp gs gid).1 =
          RegResult.err "Invalid subdomain format" errInvalidSubdomain) ∧
      (isValidSubdomain r = true →
        (registerTunnel st ws (some r) lp gs gid).1.errCode = some errSubdomainTaken) := by
  by_cases hv : isValidSubdomain r = true
  · have hrl : toLowerString r ∈ reservedSubdomains ∨
        (lookupA st.tunnelsBySubdomain (toLowerString r)).isSome = true := by
      rcases hfail with h | h
      · rw [hv] at h
        exact absurd h (by simp)
      · exact h
    by_cases hres : toLowerString r ∈ reservedSubdomains
    · rw [show registerTunnel st ws (some r) lp gs gid =
        (RegResult.err "Subdomain is reserved" errSubdomainTaken, st)
        from by simp [registerTunnel, hr, hv, hres]]
      refine ⟨rfl, ?_, fun _ => rfl⟩
      intro hf
      rw [hf] at hv
      exact absurd hv (by simp)
    · have hlive : (lookupA st.tunnelsBySubdomain (toLowerString r)).isSome = true := by
        rcases hrl with h | h
        · exact absurd h hres
        · exact h
      rw [show registerTunnel st ws (some r) lp gs gid =
        (RegResult.err "Subdomain is already in use" errSubdomainTaken, st)
        from by simp [registerTunnel, hr, hv, hres, hlive]]
      refine ⟨rfl, ?_, fun _ => rfl⟩
      intro hf
      rw [hf] at hv
      exact absurd hv (by simp)
  · have hvf : isValidSubdomain r = false := by simpa using hv
    rw [show registerTunnel st ws (some r) lp gs gid =
      (RegResult.err "Invalid subdomain format" errInvalidSubdomain, st)
      from by simp [registerTunnel, hr, hvf]]
    refine ⟨rfl, fun _ => rfl, ?_⟩
    intro ht
    rw [ht] at hvf
    exact absurd hvf (by simp)

theorem c1_witness :
    ("mail" : String) ≠ "" ∧
      (isValidSubdomain "mail" = false ∨
        toLowerString "mail" ∈ reservedSubdomains ∨
        (lookupA initialManagerState.tunnelsBySubdomain (toLowerString "mail")).isSome = true) ∧
      ((registerTunnel initialManagerState 0 (some "mail") 8080 "gensub00" "IdA").2 =
          initialManagerState ∧
        (isValidSubdomain "mail" = false →
          (registerTunnel initialManagerState 0 (some "mail") 8080 "gensub00" "IdA").1 =
            RegResult.err "Invalid subdomain format" errInvalidSubdomain) ∧
        (isValidSubdomain "mail" = true →
          (registerTunnel initialManagerState 0 (some "mail") 8080 "gensub00" "IdA").1.errCode =
            some errSubdomainTaken)) :=
  ⟨by decide, by decide,
    c1_requested_failures_no_mutation initialManagerState 0 8080 "gensub00" "IdA" "mail"
      (by decide) (by decide)⟩

/-- C2: after any sequence of register and close operations respecting the
generator contracts, the three registry indices agree: every live tunnel is
found under its subdomain key, its id key, and inside its channel's list, with
all three pointing at the same record, and no tunnel is in one index but
missing from another. -/
theorem c2_registry_indices_agree (ops : List ManagerOp)
    (hok : okTrace initialManagerState ops = true) :
    IdIndexOk (applyOps initialManagerState ops) ∧
      SubIndexOk (applyOps initialManagerState ops) ∧
      WsIndexOk (applyOps initialManagerState ops) := by
  have h := applyOps_good initialManagerState ops goodState_initial hok
  exact ⟨h.1, h.2.1, h.2.2.1⟩

/-- Sample operation sequence exercising registration (requested and
generated subdomains), close, close-for-channel, and close-all. -/
def c2TraceOps : List ManagerOp :=
  [ManagerOp.registerOp 0 (some "hello42") 8080 "gen0sub0" "IdAAAAAAAAAA",
   ManagerOp.registerOp 0 none 8081 "gen0sub1" "IdAAAAAAAAAB",
   ManagerOp.registerOp 1 (some "demo1") 3000 "gen0sub2" "IdAAAAAAAAAC",
   ManagerOp.closeOp "IdAAAAAAAAAA" "Client requested close",
   ManagerOp.closeForWsOp 0 "Client disconnected",
   ManagerOp.closeAllOp]

theorem c2_witness :
    okTrace initialManagerState c2TraceOps = true ∧
      (IdIndexOk (applyOps initialManagerState c2TraceOps) ∧
        SubIndexOk (applyOps initialManagerState c2TraceOps) ∧
        WsIndexOk (applyOps initialManagerState c2TraceOps)) :=
  ⟨by decide, c2_registry_indices_agree c2TraceOps (by decide)⟩

/-- C6: closing a live tunnel removes it from all three indices, rejects every
pending request with "Tunnel closed", empties the pending table, emits a
`closed` event carrying the tunnel and the reason, and a second close of the
same id is a no-op. -/
theorem c6_closeTunnel_spec (st : ManagerState) (tid reason : String) (tunnel : Tunnel)
    (hg : GoodState st) (hlook : lookupA st.tunnelsById tid = some tunnel) :
    lookupA (closeTunnel st tid reason).1.tunnelsById tid = none ∧
      lookupA (closeTunnel st tid reason).1.tunnelsBySubdomain tunnel.subdomain = none ∧
      tunnel ∉ wsTunnels (closeTunnel st tid reason).1 tunnel.ws ∧
      (closeTunnel st tid reason).2.2 =
        tunnel.pendingRequests.map (fun rid => (rid, "Tunnel closed")) ∧
      (closeTunnel st tid reason).2.1 =
        [ManagerEvent.closedEvent { tunnel with pendingRequests := [] } reason] ∧
      closeTunnel (closeTunnel st tid reason).1 tid reason =
        ((closeTunnel st tid reason).1, [], []) := by
  obtain ⟨hIdx, hSub, hWs, hNid, hNsub, hNws, hNlist⟩ := hg
  have hmemId : (tid, tunnel) ∈ st.tunnelsById := mem_of_lookupA_eq_some _ _ _ hlook
  obtain ⟨hkey, hsubLook, hwsMem⟩ := hIdx (tid, tunnel) hmemId
  rcases Option.eq_none_or_eq_some (lookupA st.tunnelsByWs tunnel.ws)
    with hwnone | ⟨l0, hsome⟩
  · exfalso
    unfold wsTunnels at hwsMem
    rw [hwnone] at hwsMem
    simp at hwsMem
  · have hl0pair : (tunnel.ws, l0) ∈ st.tunnelsByWs := mem_of_lookupA_eq_some _ _ _ hsome
    have hl0nd : (l0.map Tunnel.tunnelId).Nodup := hNlist _ hl0pair
    rw [closeTunnel_eq_of_found st tid reason tunnel hlook l0 hsome]
    have hidgone : lookupA (eraseA st.tunnelsById tid) tid = none :=
      lookupA_eraseA_self _ _ hNid
    refine ⟨hidgone, lookupA_eraseA_self _ _ hNsub, ?_, rfl, rfl, ?_⟩
    · unfold wsTunnels
      by_cases hrem : removeFirstTunnel l0 tid = []
      · rw [show (⟨eraseA st.tunnelsBySubdomain tunnel.subdomain, eraseA st.tunnelsById tid,
          if removeFirstTunnel l0 tid = [] then eraseA st.tunnelsByWs tunnel.ws
          else insertA st.tunnelsByWs tunnel.ws (removeFirstTunnel l0 tid)⟩ :
          ManagerState).tunnelsByWs = eraseA st.tunnelsByWs tunnel.ws
          from by simp [hrem]]
        rw [lookupA_eraseA_self _ _ hNws]
        simp
      · rw [show (⟨eraseA st.tunnelsBySubdomain tunnel.subdomain, eraseA st.tunnelsById tid,
          if removeFirstTunnel l0 tid = [] then eraseA st.tunnelsByWs tunnel.ws
          else insertA st.tunnelsByWs tunnel.ws (removeFirstTunnel l0 tid)⟩ :
          ManagerState).tunnelsByWs = insertA st.tunnelsByWs tunnel.ws (removeFirstTunnel l0 tid)
          from by simp [hrem]]
        rw [lookupA_insertA_self]
        intro hmem
        simp only [Option.getD_some] at hmem
        exact mem_removeFirstTunnel_ne _ _ _ hl0nd hmem hkey.symm
    · simp only [closeTunnel, hidgone]

/-- Sample live tunnel with two pending requests, for the close witness. -/
def tunnelSample : Tunnel :=
  { tunnelId := "IdAAAAAAAAAA", subdomain := "hello42", ws := 0, localPort := 8080,
    requestCount := 3, bytesIn := 10, bytesOut := 20,
    pendingRequests := ["req1aaaaaaaaaaaa", "req2aaaaaaaaaaaa"] }

/-- Sample registry state holding `tunnelSample` in all three indices. -/
def stSample : ManagerState :=
  ⟨[("hello42", tunnelSample)], [("IdAAAAAAAAAA", tunnelSample)], [(0, [tunnelSample])]⟩

theorem c6_witness :
    GoodState stSample ∧
      lookupA stSample.tunnelsById "IdAAAAAAAAAA" = some tunnelSample ∧
      (lookupA (closeTunnel stSample "IdAAAAAAAAAA" "Client requested close").1.tunnelsById
          "IdAAAAAAAAAA" = none ∧
        lookupA (closeTunnel stSample "IdAAAAAAAAAA" "Client requested close").1.tunnelsBySubdomain
          tunnelSample.subdomain = none ∧
        tunnelSample ∉ wsTunnels (closeTunnel stSample "IdAAAAAAAAAA" "Client requested close").1
          tunnelSample.ws ∧
        (closeTunnel stSample "IdAAAAAAAAAA" "Client requested close").2.2 =
          tunnelSample.pendingRequests.map (fun rid => (rid, "Tunnel closed")) ∧
        (closeTunnel stSample "IdAAAAAAAAAA" "Client requested close").2.1 =
          [ManagerEvent.closedEvent { tunnelSample with pendingRequests := [] }
            "Client requested close"] ∧
        closeTunnel (closeTunnel stSample "IdAAAAAAAAAA" "Client requested close").1
            "IdAAAAAAAAAA" "Client requested close" =
          ((closeTunnel stSample "IdAAAAAAAAAA" "Client requested close").1, [], [])) :=
  ⟨by decide, by decide,
    c6_closeTunnel_spec stSample "IdAAAAAAAAAA" "Client requested close" tunnelSample
      (by decide) (by decide)⟩

theorem isValidSubdomain_false_of_pattern_false (s : String)
    (h : subdomainPatternTest s = false) : isValidSubdomain s = false := by
  unfold isValidSubdomain
  by_cases h1 : s.isEmpty = true
  · rw [if_pos h1]
  · rw [if_neg h1]
    by_cases h2 : s.length < SUBDOMAIN_MIN_LENGTH
    · rw [if_pos h2]
    · rw [if_neg h2]
      by_cases h3 : SUBDOMAIN_MAX_LENGTH < s.length
      · rw [if_pos h3]
      · rw [if_neg h3]
        exact h

theorem linkTunnel_ok_eq (st : ManagerState) (ws : Nat) (s : String) (lp : Nat) (gid : String)
    (hcap : ¬ MAX_TUNNELS_PER_CLIENT ≤ ((lookupA st.tunnelsByWs ws).getD []).length) :
    linkTunnel st ws s lp gid =
      (RegResult.ok { tunnelId := gid, subdomain := s, ws := ws, localPort := lp },
        ⟨insertA st.tunnelsBySubdomain s
            { tunnelId := gid, subdomain := s, ws := ws, localPort := lp },
          insertA st.tunnelsById gid
            { tunnelId := gid, subdomain := s, ws := ws, localPort := lp },
          insertA st.tunnelsByWs ws (((lookupA st.tunnelsByWs ws).getD []) ++
            [{ tunnelId := gid, subdomain := s, ws := ws, localPort := lp }])⟩) := by
  simp [linkTunnel, hcap]

/-- C8 counterexample: requesting `"Demo1"` — which differs from the valid,
free, lowercase label `"demo1"` only in letter case — is rejected with
`INVALID_SUBDOMAIN` instead of succeeding, because validation happens before
any case folding and the pattern admits lowercase only. -/
theorem c8_counterexample :
    (registerTunnel initialManagerState 0 (some "Demo1") 8080 "gen0sub0" "IdAAAAAAAAAA").1 =
        RegResult.err "Invalid subdomain format" errInvalidSubdomain ∧
      (registerTunnel initialManagerState 0 (some "Demo1") 8080 "gen0sub0" "IdAAAAAAAAAA").2 =
        initialManagerState ∧
      toLowerString "Demo1" = "demo1" ∧
      isValidSubdomain "demo1" = true ∧
      (registerTunnel initialManagerState 0 (some "demo1") 8080 "gen0sub0"
        "IdAAAAAAAAAA").1.isOk = true := by
  decide

/-- C8 amended: a requested subdomain containing an uppercase ASCII letter is
rejected with `INVALID_SUBDOMAIN` and leaves the state unchanged (validation
precedes case folding and the pattern is lowercase-only); lookups are
case-folded, so case variants of a label always resolve alike, and after a
successful registration any case variant of the requested label finds the
registered tunnel. -/
theorem c8_amended_case_handling (st : ManagerState) (ws lp : Nat)
    (gs gid r r2 v w w' : String) (tun : Tunnel)
    (hup : ∃ c ∈ r.data, 65 ≤ c.toNat ∧ c.toNat ≤ 90)
    (hr2 : r2 ≠ "")
    (hok : (registerTunnel st ws (some r2) lp gs gid).1 = RegResult.ok tun)
    (hv : toLowerString v = toLowerString r2)
    (hww : toLowerString w = toLowerString w') :
    registerTunnel st ws (some r) lp gs gid =
        (RegResult.err "Invalid subdomain format" errInvalidSubdomain, st) ∧
      getTunnelBySubdomain st w = getTunnelBySubdomain st w' ∧
      getTunnelBySubdomain (registerTunnel st ws (some r2) lp gs gid).2 v = some tun := by
  obtain ⟨c, hc, hc1, hc2⟩ := hup
  have hrne : r ≠ "" := by
    intro e
    rw [e] at hc
    exact absurd hc (by intro h; exact absurd h (List.not_mem_nil c))
  have hvf : isValidSubdomain r = false :=
    isValidSubdomain_false_of_pattern_false r
      (subdomainPatternTest_false_of_badChar r c hc (isSubCharDash_false_of_upper c hc1 hc2))
  refine ⟨by simp [registerTunnel, hrne, hvf], ?_, ?_⟩
  · unfold getTunnelBySubdomain
    rw [hww]
  · by_cases hv2 : isValidSubdomain r2 = true
    · by_cases hres : toLowerString r2 ∈ reservedSubdomains
      · exfalso
        rw [show (registerTunnel st ws (some r2) lp gs gid).1 =
          RegResult.err "Subdomain is reserved" errSubdomainTaken
          from by simp [registerTunnel, hr2, hv2, hres]] at hok
        exact RegResult.noConfusion hok
      · by_cases hlive : (lookupA st.tunnelsBySubdomain (toLowerString r2)).isSome = true
        · exfalso
          rw [show (registerTunnel st ws (some r2) lp gs gid).1 =
            RegResult.err "Subdomain is already in use" errSubdomainTaken
            from by simp [registerTunnel, hr2, hv2, hres, hlive]] at hok
          exact RegResult.noConfusion hok
        · have heq : registerTunnel st ws (some r2) lp gs gid =
              linkTunnel st ws (toLowerString r2) lp gid := by
            simp [registerTunnel, hr2, hv2, hres, hlive]
          rw [heq] at hok ⊢
          by_cases hcap : MAX_TUNNELS_PER_CLIENT ≤ ((lookupA st.tunnelsByWs ws).getD []).length
          · exfalso
            rw [show (linkTunnel st ws (toLowerString r2) lp gid).1 =
              RegResult.err "Maximum tunnels per client exceeded" errTunnelLimitExceeded
              from by simp [linkTunnel, hcap]] at hok
            exact RegResult.noConfusion hok
          · rw [linkTunnel_ok_eq st ws (toLowerString r2) lp gid hcap] at hok ⊢
            have htun : Tunnel.mk gid (toLowerString r2) ws lp 0 0 0 [] = tun := by
              injection hok
            unfold getTunnelBySubdomain
            show lookupA (insertA st.tunnelsBySubdomain (toLowerString r2)
              (Tunnel.mk gid (toLowerString r2) ws lp 0 0 0 [])) (toLowerString v) = some tun
            rw [hv, lookupA_insertA_self, htun]
    · exfalso
      have hvf2 : isValidSubdomain r2 = false := by simpa using hv2
      rw [show (registerTunnel st ws (some r2) lp gs gid).1 =
        RegResult.err "Invalid subdomain format" errInvalidSubdomain
        from by simp [registerTunnel, hr2, hvf2]] at hok
      exact RegResult.noConfusion hok

theorem c8_witness :
    (∃ c ∈ ("Demo1" : String).data, 65 ≤ c.toNat ∧ c.toNat ≤ 90) ∧
      ("demo1" : String) ≠ "" ∧
      (registerTunnel initialManagerState 0 (some "demo1") 8080 "gen0sub0"
          "IdAAAAAAAAAA").1 =
        RegResult.ok (Tunnel.mk "IdAAAAAAAAAA" "demo1" 0 8080 0 0 0 []) ∧
      toLowerString "DEMO1" = toLowerString "demo1" ∧
      toLowerString "HeLLo42" = toLowerString "hello42" ∧
      (registerTunnel initialManagerState 0 (some "Demo1") 8080 "gen0sub0" "IdAAAAAAAAAA" =
          (RegResult.err "Invalid subdomain format" errInvalidSubdomain,
            initialManagerState) ∧
        getTunnelBySubdomain initialManagerState "HeLLo42" =
          getTunnelBySubdomain initialManagerState "hello42" ∧
        getTunnelBySubdomain
          (registerTunnel initialManagerState 0 (some "demo1") 8080 "gen0sub0"
            "IdAAAAAAAAAA").2 "DEMO1" =
          some (Tunnel.mk "IdAAAAAAAAAA" "demo1" 0 8080 0 0 0 [])) :=
  ⟨by decide, by decide, by decide, by decide, by decide,
    c8_amended_case_handling initialManagerState 0 8080 "gen0sub0" "IdAAAAAAAAAA"
      "Demo1" "demo1" "DEMO1" "HeLLo42" "hello42"
      (Tunnel.mk "IdAAAAAAAAAA" "demo1" 0 8080 0 0 0 [])
      (by decide) (by decide) (by decide) (by decide) (by decide)⟩

/-- C10: when a channel already owns the maximum number of tunnels, a
registration whose requested subdomain fails validation, is reserved, or is
live still reports the subdomain error, and `TUNNEL_LIMIT_EXCEEDED` is
reported exactly when the requested subdomain passes all three checks —
the cap is only consulted after the subdomain handling. -/
theorem c10_limit_checked_after_subdomain (st : ManagerState) (ws lp : Nat)
    (gs gid r : String) (hr : r ≠ "")
    (hcap : MAX_TUNNELS_PER_CLIENT ≤ ((lookupA st.tunnelsByWs ws).getD []).length) :
    (isValidSubdomain r = false →
        (registerTunnel st ws (some r) lp gs gid).1.errCode = some errInvalidSubdomain) ∧
      (isValidSubdomain r = true →
        (toLowerString r ∈ reservedSubdomains ∨
          (lookupA st.tunnelsBySubdomain (toLowerString r)).isSome = true) →
        (registerTunnel st ws (some r) lp gs gid).1.errCode = some errSubdomainTaken) ∧
      ((registerTunnel st ws (some r) lp gs gid).1.errCode = some errTunnelLimitExceeded ↔
        (isValidSubdomain r = true ∧ toLowerString r ∉ reservedSubdomains ∧
          lookupA st.tunnelsBySubdomain (toLowerString r) = none)) := by
  by_cases hv : isValidSubdomain r = true
  · by_cases hres : toLowerString r ∈ reservedSubdomains
    · rw [show registerTunnel st ws (some r) lp gs gid =
        (RegResult.err "Subdomain is reserved" errSubdomainTaken, st)
        from by simp [registerTunnel, hr, hv, hres]]
      refine ⟨?_, fun _ _ => rfl, ?_⟩
      · intro hf
        rw [hf] at hv
        exact absurd hv (by simp)
      · constructor
        · intro h
          injection h with h
          exact absurd h (by simp [errSubdomainTaken, errTunnelLimitExceeded])
        · rintro ⟨-, h2, -⟩
          exact absurd hres h2
    · by_cases hlive : (lookupA st.tunnelsBySubdomain (toLowerString r)).isSome = true
      · rw [show registerTunnel st ws (some r) lp gs gid =
          (RegResult.err "Subdomain is already in use" errSubdomainTaken, st)
          from by simp [registerTunnel, hr, hv, hres, hlive]]
        refine ⟨?_, fun _ _ => rfl, ?_⟩
        · intro hf
          rw [hf] at hv
          exact absurd hv (by simp)
        · constructor
          · intro h
            injection h with h
            exact absurd h (by simp [errSubdomainTaken, errTunnelLimitExceeded])
          · rintro ⟨-, -, h3⟩
            rw [h3] at hlive
            exact absurd hlive (by simp)
      · have hnone : lookupA st.tunnelsBySubdomain (toLowerString r) = none :=
          Option.not_isSome_iff_eq_none.mp hlive
        rw [show registerTunnel st ws (some r) lp gs gid =
          (RegResult.err "Maximum tunnels per client exceeded" errTunnelLimitExceeded, st)
          from by simp [registerTunnel, linkTunnel, hr, hv, hres, hlive, hcap]]
        refine ⟨?_, fun _ hd => ?_, ?_⟩
        · intro hf
          rw [hf] at hv
          exact absurd hv (by simp)
        · rcases hd with hd | hd
          · exact absurd hd hres
          · exact absurd hd hlive
        · exact ⟨fun _ => ⟨hv, hres, hnone⟩, fun _ => rfl⟩
  · have hvf : isValidSubdomain r = false := by simpa using hv
    rw [show registerTunnel st ws (some r) lp gs gid =
      (RegResult.err "Invalid subdomain format" errInvalidSubdomain, st)
      from by simp [registerTunnel, hr, hvf]]
    refine ⟨fun _ => rfl, ?_, ?_⟩
    · intro ht
      rw [ht] at hvf
      exact absurd hvf (by simp)
    · constructor
      · intro h
        injection h with h
        exact absurd h (by simp [errInvalidSubdomain, errTunnelLimitExceeded])
      · rintro ⟨h1, -, -⟩
        rw [h1] at hvf
        exact absurd hvf (by simp)

/-- Registry state whose channel 0 already owns ten tunnels. -/
def stFullChannel : ManagerState :=
  ⟨[], [], [(0, List.replicate 10 tunnelSample)]⟩

theorem c10_witness :
    ("hello42" : String) ≠ "" ∧
      MAX_TUNNELS_PER_CLIENT ≤
        ((lookupA stFullChannel.tunnelsByWs 0).getD []).length ∧
      ((isValidSubdomain "hello42" = false →
          (registerTunnel stFullChannel 0 (some "hello42") 8080 "gen0sub0"
            "IdAAAAAAAAAB").1.errCode = some errInvalidSubdomain) ∧
        (isValidSubdomain "hello42" = true →
          (toLowerString "hello42" ∈ reservedSubdomains ∨
            (lookupA stFullChannel.tunnelsBySubdomain
              (toLowerString "hello42")).isSome = true) →
          (registerTunnel stFullChannel 0 (some "hello42") 8080 "gen0sub0"
            "IdAAAAAAAAAB").1.errCode = some errSubdomainTaken) ∧
        ((registerTunnel stFullChannel 0 (some "hello42") 8080 "gen0sub0"
            "IdAAAAAAAAAB").1.errCode = some errTunnelLimitExceeded ↔
          (isValidSubdomain "hello42" = true ∧
            toLowerString "hello42" ∉ reservedSubdomains ∧
            lookupA stFullChannel.tunnelsBySubdomain (toLowerString "hello42") = none))) :=
  ⟨by decide, by decide,
    c10_limit_checked_after_subdomain stFullChannel 0 8080 "gen0sub0" "IdAAAAAAAAAB"
      "hello42" (by decide) (by decide)⟩

/-- C9: `isValidSubdomain` accepts exactly the strings of length 4 through 32
matching `[a-z0-9][a-z0-9-]*[a-z0-9]`, and behaves as required on the
boundary inputs: length 3 rejected, 4 accepted, 32 accepted, 33 rejected,
leading and trailing dash rejected, interior dash accepted. -/
theorem c9_subdomain_validation :
    (∀ s : String, isValidSubdomain s = true ↔
        (4 ≤ s.length ∧ s.length ≤ 32 ∧ SubdomainGrammar s)) ∧
      isValidSubdomain "abc" = false ∧
      isValidSubdomain "abcd" = true ∧
      isValidSubdomain "abcdefghijklmnopqrstuvwxyz012345" = true ∧
      isValidSubdomain "abcdefghijklmnopqrstuvwxyz0123456" = false ∧
      isValidSubdomain "-abc" = false ∧
      isValidSubdomain "abc-" = false ∧
      isValidSubdomain "ab-c" = true := by
  refine ⟨?_, by decide, by decide, by decide, by decide, by decide, by decide, by decide⟩
  intro s
  exact isValidSubdomain_iff s

/-! Protocol codec, from the shared protocol module (`MessageType`,
`parseMessage`) and the WebSocket handler dispatch. JSON values reaching
`JSON.parse` successfully are modelled by a `Json` tree; a raw input whose
`JSON.parse` throws is modelled as `none`. -/

inductive Json where
  | jnull
  | jbool (b : Bool)
  | jnum (n : Int)
  | jstr (s : String)
  | jarr (items : List Json)
  | jobj (fields : List (String × Json))

/-- The fourteen values of the `MessageType` enumeration, in source order. -/
def messageTypeValues : List String :=
  ["tunnel:register", "tunnel:registered", "tunnel:close", "tunnel:closed",
   "http:request", "http:response", "http:error", "ping", "pong", "error",
   "inspect:request", "inspect:response", "replay:request", "replay:response"]

/-- The seven wire types the specification's protocol table lists (counting
`ping`/`pong` as one row of two strings). -/
def specSevenTypeValues : List String :=
  ["tunnel:register", "tunnel:registered", "tunnel:close",
   "http:request", "http:response", "http:error", "ping", "pong"]

/-- JavaScript member access `parsed.type`: a field of an object, absent
otherwise (accessing a member of `null` throws, which `parseMessage` catches
into the same `null` result as a missing field). -/
def jsField (j : Json) (name : String) : Option Json :=
  match j with
  | Json.jobj fields => lookupA fields name
  | _ => none

/-- Truthy string view of `parsed.type` as `parseMessage` consumes it: the
guard `!parsed.type` rejects falsy values, and the `MessageType` value search
can only match a string. -/
def truthyString : Option Json → Option String
  | some (Json.jstr s) => if s = "" then none else some s
  | _ => none

/-- Model of `parseMessage`: fail on malformed JSON, then fail unless the
`type` field is (truthy and) one of the fourteen `MessageType` values;
otherwise return the parsed value unchanged. -/
def parseMessage (data : Option Json) : Option Json :=
  match data with
  | none => none
  | some parsed =>
    match truthyString (jsField parsed "type") with
    | none => none
    | some t => if messageTypeValues.contains t then some parsed else none

/-- Actions the WebSocket handler can take on one incoming message; sending a
reply never terminates the channel, and no dispatch branch closes it. -/
inductive WsAction where
  | sendError (error code : String)
  | registerAction (payload : Json)
  | closeAction (payload : Json)
  | httpResponseAction (payload : Json)
  | httpErrorAction (payload : Json)
  | pongReply (payload : Json)
  | noAction

/-- Model of `WebSocketHandler.handleMessage`: parse, report
`INVALID_MESSAGE` on failure, otherwise dispatch on the type string, with
unhandled (but enumerated) types drawing `UNKNOWN_MESSAGE`. -/
def handleMessage (data : Option Json) : WsAction :=
  match parseMessage data with
  | none => WsAction.sendError "Invalid message format" "INVALID_MESSAGE"
  | some message =>
    let t := (truthyString (jsField message "type")).getD ""
    let payload := (jsField message "payload").getD Json.jnull
    if t = "tunnel:register" then WsAction.registerAction payload
    else if t = "tunnel:close" then WsAction.closeAction payload
    else if t = "http:response" then WsAction.httpResponseAction payload
    else if t = "http:error" then WsAction.httpErrorAction payload
    else if t = "ping" then WsAction.pongReply payload
    else if t = "pong" then WsAction.noAction
    else WsAction.sendError ("Unknown message type: " ++ t) "UNKNOWN_MESSAGE"

/-- C3 counterexample: the input object with type `"inspect:request"` decodes
successfully (`parseMessage` does not return null) even though
`"inspect:request"` is not one of the seven protocol types of the claim, so
decoding failure is not equivalent to "malformed or type outside the seven". -/
theorem c3_counterexample :
    (parseMessage (some (Json.jobj [("type", Json.jstr "inspect:request")]))).isSome = true ∧
      specSevenTypeValues.contains "inspect:request" = false ∧
      messageTypeValues.contains "inspect:request" = true := by
  refine ⟨rfl, by decide, by decide⟩

/-- C3 amended: `parseMessage` returns null exactly when the input is
malformed JSON or its `type` field is not (a truthy string equal to) one of
the fourteen `MessageType` values — the seven wire types plus
`tunnel:closed`, `error`, `inspect:request`, `inspect:response`,
`replay:request` and `replay:response`; every such failure is answered with
an `INVALID_MESSAGE` error reply (never a channel close), and that reply
arises only for such failures. -/
theorem c3_amended_decode_failure (data : Option Json) :
    (parseMessage data = none ↔
        (data = none ∨ ∀ j, data = some j →
          ∀ t, truthyString (jsField j "type") = some t → t ∉ messageTypeValues)) ∧
      (handleMessage data = WsAction.sendError "Invalid message format" "INVALID_MESSAGE" ↔
        parseMessage data = none) := by
  constructor
  · match data with
    | none => simp [parseMessage]
    | some j =>
      simp only [parseMessage, Option.some.injEq, reduceCtorEq, false_or]
      match htf : truthyString (jsField j "type") with
      | none =>
        constructor
        · intro _ j2 hj2 t ht
          rw [← hj2, htf] at ht
          exact Option.noConfusion ht
        · intro _
          rfl
      | some t0 =>
        by_cases hmem : messageTypeValues.contains t0 = true
        · change (if messageTypeValues.contains t0 = true then some j else none) = none ↔ _
          rw [if_pos hmem]
          constructor
          · intro h
            exact absurd h (by simp)
          · intro h
            have hmem2 : t0 ∈ messageTypeValues := by simpa using hmem
            exact absurd hmem2 (h j rfl t0 htf)
        · change (if messageTypeValues.contains t0 = true then some j else none) = none ↔ _
          rw [if_neg hmem]
          constructor
          · intro _ j2 hj2 t ht
            rw [← hj2, htf] at ht
            injection ht with ht
            rw [← ht]
            intro habs
            exact hmem (by simpa using habs)
          · intro _
            rfl
  · match hp : parseMessage data with
    | none => simp [handleMessage, hp]
    | some message =>
      simp only [handleMessage, hp]
      have htype : ∃ t, truthyString (jsField message "type") = some t ∧
          messageTypeValues.contains t = true := by
        match data with
        | none => exact absurd hp (by simp [parseMessage])
        | some j =>
          simp only [parseMessage] at hp
          match htf : truthyString (jsField j "type") with
          | none =>
            rw [htf] at hp
            exact Option.noConfusion hp
          | some t0 =>
            rw [htf] at hp
            change (if messageTypeValues.contains t0 = true then some j else none) =
              some message at hp
            by_cases hmem : messageTypeValues.contains t0 = true
            · rw [if_pos hmem] at hp
              injection hp with hp
              rw [hp] at htf
              exact ⟨t0, htf, hmem⟩
            · rw [if_neg hmem] at hp
              exact Option.noConfusion hp
      obtain ⟨t, ht, hmem⟩ := htype
      rw [ht]
      simp only [Option.getD_some]
      by_cases h1 : t = "tunnel:register"
      · simp [h1]
      · by_cases h2 : t = "tunnel:close"
        · simp [h1, h2]
        · by_cases h3 : t = "http:response"
          · simp [h1, h2, h3]
          · by_cases h4 : t = "http:error"
            · simp [h1, h2, h3, h4]
            · by_cases h5 : t = "ping"
              · simp [h1, h2, h3, h4, h5]
              · by_cases h6 : t = "pong"
                · simp [h1, h2, h3, h4, h5, h6]
                · simp only [h1, h2, h3, h4, h5, h6, if_false]
                  constructor
                  · intro h
                    injection h with ha hb
                    exact absurd hb (by simp)
                  · intro h
                    exact Option.noConfusion h

/-! Inspector store, from `InspectorService` and `InspectedTraffic` in
`TunnelManager.js`. A captured exchange is a `Traffic` record; the store keeps
the three indices of the source. Request bodies are stored as their UTF-8
string (`body.toString('utf8')`); response bodies arrive base64-encoded on
the wire and are modelled by their decoded byte list. `Date.now()` readings
are passed in as `now`. -/

structure RequestData where
  requestId : String
  tunnelId : String
  subdomain : String
  method : String
  path : String
  headers : List (String × String)
  body : Option String
  query : String
  timestamp : Nat
  clientIp : String
deriving DecidableEq

structure ResponseData where
  requestId : String
  statusCode : Nat
  headers : List (String × String)
  body : Option (List Nat)
  error : Option String
  responseTime : Nat
  timestamp : Nat
deriving DecidableEq

structure Traffic where
  requestId : String
  tunnelId : String
  subdomain : String
  reqMethod : String
  reqPath : String
  reqHeaders : List (String × String)
  reqBody : Option String
  reqQuery : String
  reqTimestamp : Nat
  clientIp : String
  respStatus : Option Nat := none
  respHeaders : List (String × String) := []
  respBody : Option (List Nat) := none
  respError : Option String := none
  respTimestamp : Option Nat := none
  responseTime : Option Nat := none
  createdAt : Nat
deriving DecidableEq

/-- Model of the `InspectedTraffic` constructor. -/
def Traffic.ofRequest (r : RequestData) (now : Nat) : Traffic :=
  { requestId := r.requestId, tunnelId := r.tunnelId, subdomain := r.subdomain,
    reqMethod := r.method, reqPath := r.path, reqHeaders := r.headers,
    reqBody := r.body, reqQuery := r.query, reqTimestamp := r.timestamp,
    clientIp := r.clientIp, createdAt := now }

/-- Model of `InspectedTraffic.setResponse`. -/
def Traffic.setResponse (t : Traffic) (r : ResponseData) : Traffic :=
  { t with respStatus := some r.statusCode, respHeaders := r.headers,
           respBody := r.body, respError := r.error,
           respTimestamp := some r.timestamp, responseTime := some r.responseTime }

structure InspectorState where
  maxStoredRequests : Nat
  trafficByTunnel : List (String × List Traffic)
  allTraffic : List Traffic
  trafficByRequestId : List (String × Traffic)
deriving DecidableEq

def initialInspectorState (maxStored : Nat) : InspectorState := ⟨maxStored, [], [], []⟩

/-- The global `while` loop of `enforceLimit`: shift the oldest exchange off
the global buffer and delete it from the request-id map while the buffer
exceeds the bound. -/
def trimGlobal (maxStored : Nat) :
    List Traffic → List (String × Traffic) → List Traffic × List (String × Traffic)
  | [], m => ([], m)
  | h :: t, m =>
    if maxStored < (h :: t).length then trimGlobal maxStored t (eraseA m h.requestId)
    else (h :: t, m)

/-- The per-tunnel `while` loop of `enforceLimit`: shift the oldest exchange
while the list length exceeds `maxStoredRequests / 2` (stated over integers:
`len > N / 2` in floating point is `2 * len > N`). The map is not touched. -/
def trimTunnelList (maxStored : Nat) : List Traffic → List Traffic
  | [] => []
  | h :: t => if maxStored < 2 * (h :: t).length then trimTunnelList maxStored t else h :: t

/-- Model of `InspectorService.enforceLimit`. -/
def enforceLimit (st : InspectorState) : InspectorState :=
  let trimmed := trimGlobal st.maxStoredRequests st.allTraffic st.trafficByRequestId
  { st with
    allTraffic := trimmed.1,
    trafficByRequestId := trimmed.2,
    trafficByTunnel := st.trafficByTunnel.map
      (fun p => (p.1, trimTunnelList st.maxStoredRequests p.2)) }

/-- Model of `InspectorService.recordRequest`: insert the new exchange into
the request-id map, the per-tunnel buffer, and the global buffer, then run
`enforceLimit`. -/
def recordRequest (st : InspectorState) (req : RequestData) (now : Nat) : InspectorState :=
  let traffic := Traffic.ofRequest req now
  let byId := insertA st.trafficByRequestId req.requestId traffic
  let byTunnel0 := if (lookupA st.trafficByTunnel req.tunnelId).isNone then
    insertA st.trafficByTunnel req.tunnelId [] else st.trafficByTunnel
  let byTunnel := insertA byTunnel0 req.tunnelId
    (((lookupA byTunnel0 req.tunnelId).getD []) ++ [traffic])
  enforceLimit
    { st with
      trafficByRequestId := byId,
      trafficByTunnel := byTunnel,
      allTraffic := st.allTraffic ++ [traffic] }

/-- Model of `InspectorService.recordResponse`. The source mutates the one
shared exchange object in place; in this value model the update is applied at
every alias of that exchange, keyed by its request id. An orphaned response
(no recorded request) is dropped. -/
def recordResponse (st : InspectorState) (resp : ResponseData) : InspectorState :=
  match lookupA st.trafficByRequestId resp.requestId with
  | none => st
  | some traffic =>
    let updated := traffic.setResponse resp
    { st with
      trafficByRequestId := insertA st.trafficByRequestId resp.requestId updated,
      allTraffic := st.allTraffic.map
        (fun t => if t.requestId = resp.requestId then updated else t),
      trafficByTunnel := st.trafficByTunnel.map
        (fun p => (p.1, p.2.map (fun t => if t.requestId = resp.requestId then updated else t))) }

/-! Curl synthesis, from `InspectedTraffic.toCurl`. -/

/-- Model of `body.replace(/'/g, "'\\''")`: every single quote becomes the
four characters quote, backslash, quote, quote. -/
def escapeQuoteChars : List Char → List Char
  | [] => []
  | c :: rest =>
    if c = '\'' then '\'' :: '\\' :: '\'' :: '\'' :: escapeQuoteChars rest
    else c :: escapeQuoteChars rest

def escapeSingleQuotes (s : String) : String := ⟨escapeQuoteChars s.data⟩

/-- Model of `InspectedTraffic.toCurl`, which joins its parts with a
backslash-newline separator and hard-codes the domain `example.com` in the
synthesized URL. -/
def toCurl (tr : Traffic) : String :=
  let parts := ["curl"]
  let parts := if tr.reqMethod ≠ "GET" then parts ++ ["-X " ++ tr.reqMethod] else parts
  let parts := parts ++ (tr.reqHeaders.filter
    (fun kv => !(["host", "content-length"].contains (toLowerString kv.1)))).map
    (fun kv => "-H '" ++ kv.1 ++ ": " ++ kv.2 ++ "'")
  let parts := match tr.reqBody with
    | some b => if b ≠ "" then parts ++ ["-d '" ++ escapeSingleQuotes b ++ "'"] else parts
    | none => parts
  let parts := parts ++
    ["'" ++ ("https://" ++ tr.subdomain ++ ".example.com" ++ tr.reqPath) ++ "'"]
  String.intercalate " \\\n  " parts

/-- Modelled from the spec: the curl synthesis of §4.G, which omits the
`host` and `content-length` headers, escapes single quotes, emits `-X` unless
the method is GET and `-d` when a body is present, and targets
`https://<subdomain>.<configured-public-domain><path>` — with the gateway's
configured public domain as an explicit parameter, which the source does not
take. -/
def toCurlSpec (publicDomain : String) (tr : Traffic) : String :=
  String.intercalate " \\\n  "
    (["curl"]
      ++ (if tr.reqMethod = "GET" then [] else ["-X " ++ tr.reqMethod])
      ++ (tr.reqHeaders.filter
          (fun kv => !(["host", "content-length"].contains (toLowerString kv.1)))).map
          (fun kv => "-H '" ++ kv.1 ++ ": " ++ kv.2 ++ "'")
      ++ (match tr.reqBody with
          | some b => if b = "" then [] else ["-d '" ++ escapeSingleQuotes b ++ "'"]
          | none => [])
      ++ ["'" ++ ("https://" ++ tr.subdomain ++ "." ++ publicDomain ++ tr.reqPath) ++ "'"])

/-! Request forwarder, from `RequestForwarder.forwardRequest` together with
`handleResponse` / `handleError` and the timeout timer. The three terminal
outcomes of one forwarded exchange are the response, the agent error, and the
timeout; the timer and `handleError` both reject the deferred promise, so an
error outcome is identified by its message, `"Request timeout"` for the
timer. The byte length of the (UTF-8) request body is what `body.length`
reads on the Buffer. -/

/-- UTF-8 byte count of one character (what Node buffers use). -/
def utf8SizeOfChar (c : Char) : Nat :=
  if c.toNat < 128 then 1
  else if c.toNat < 2048 then 2
  else if c.toNat < 65536 then 3
  else 4

/-- Byte length of a string's UTF-8 encoding, the model of `Buffer.length`. -/
def byteLen (s : String) : Nat := s.data.foldl (fun n c => n + utf8SizeOfChar c) 0

inductive ForwardOutcome where
  | response (statusCode : Nat) (headers : List (String × String)) (bodyBytes : Option (List Nat))
  | failure (errMsg : String)
deriving DecidableEq

structure ForwardResult where
  tunnel : Tunnel
  inspector : InspectorState
  httpStatus : Nat
  httpCode : Option String
deriving DecidableEq

/-- The guard `req.body && req.body.length > 0 ? req.body : null`. -/
def truthyBody : Option String → Option String
  | some b => if b = "" then none else some b
  | none => none

/-- Model of `RequestForwarder.forwardRequest` for a resolved tunnel with an
open channel, as a function of the terminal outcome of the exchange. -/
def forwardRequest (tunnel : Tunnel) (insp : InspectorState) (requestId : String)
    (method path : String) (headers : List (String × String)) (rawBody : Option String)
    (query clientIp : String) (now responseTime : Nat) (outcome : ForwardOutcome) :
    ForwardResult :=
  let body : Option String := truthyBody rawBody
  let inspectReq : RequestData :=
    { requestId := requestId, tunnelId := tunnel.tunnelId, subdomain := tunnel.subdomain,
      method := method, path := path, headers := headers, body := body, query := query,
      timestamp := now, clientIp := clientIp }
  let insp1 := recordRequest insp inspectReq now
  let tunnelPending := tunnel.addPending requestId
  match outcome with
  | ForwardOutcome.response statusCode rheaders rbody =>
    let tunnel1 := tunnelPending.removePending requestId
    let insp2 := recordResponse insp1
      { requestId := requestId, statusCode := statusCode, headers := rheaders,
        body := rbody, error := none, responseTime := responseTime, timestamp := now }
    let bodySize := (body.map byteLen).getD 0
    let responseSize := (rbody.map List.length).getD 0
    let tunnel2 := tunnel1.recordRequestStats bodySize responseSize
    { tunnel := tunnel2, inspector := insp2, httpStatus := statusCode, httpCode := none }
  | ForwardOutcome.failure errMsg =>
    let tunnel1 := tunnelPending.removePending requestId
    let insp2 := recordResponse insp1
      { requestId := requestId, statusCode := 502, headers := [], body := none,
        error := some errMsg, responseTime := responseTime, timestamp := now }
    if errMsg = "Request timeout" then
      { tunnel := tunnel1, inspector := insp2, httpStatus := 504,
        httpCode := some errRequestTimeout }
    else
      { tunnel := tunnel1, inspector := insp2, httpStatus := 502,
        httpCode := some errRequestFailed }

theorem trimGlobal_cons (maxStored : Nat) (h : Traffic) (t : List Traffic)
    (m : List (String × Traffic)) :
    trimGlobal maxStored (h :: t) m =
      if maxStored < (h :: t).length then trimGlobal maxStored t (eraseA m h.requestId)
      else (h :: t, m) := by
  simp only [trimGlobal]

theorem trimTunnelList_cons (maxStored : Nat) (h : Traffic) (t : List Traffic) :
    trimTunnelList maxStored (h :: t) =
      if maxStored < 2 * (h :: t).length then trimTunnelList maxStored t else h :: t := by
  simp only [trimTunnelList]

theorem trimGlobal_fst_length_le (maxStored : Nat) (l : List Traffic)
    (m : List (String × Traffic)) : (trimGlobal maxStored l m).1.length ≤ maxStored := by
  induction l generalizing m with
  | nil => simp [trimGlobal]
  | cons h t ih =>
    by_cases hc : maxStored < (h :: t).length
    · rw [trimGlobal_cons, if_pos hc]
      exact ih _
    · rw [trimGlobal_cons, if_neg hc]
      show (h :: t).length ≤ maxStored
      omega

theorem trimGlobal_fst_suffix (maxStored : Nat) (l : List Traffic)
    (m : List (String × Traffic)) : (trimGlobal maxStored l m).1.IsSuffix l := by
  induction l generalizing m with
  | nil => simp [trimGlobal]
  | cons h t ih =>
    by_cases hc : maxStored < (h :: t).length
    · rw [trimGlobal_cons, if_pos hc]
      exact (ih _).trans (List.suffix_cons h t)
    · rw [trimGlobal_cons, if_neg hc]

theorem trimGlobal_snd_lookup_preserved (maxStored : Nat) (l : List Traffic)
    (m : List (String × Traffic)) (rid : String) (hmax : 1 ≤ maxStored)
    (hfresh : ∀ t ∈ l.dropLast, t.requestId ≠ rid) :
    lookupA (trimGlobal maxStored l m).2 rid = lookupA m rid := by
  induction l generalizing m with
  | nil => simp [trimGlobal]
  | cons h t ih =>
    by_cases hc : maxStored < (h :: t).length
    · rw [trimGlobal_cons, if_pos hc]
      have htne : t ≠ [] := by
        intro e
        rw [e] at hc
        simp at hc
        omega
      have hh : h.requestId ≠ rid := by
        apply hfresh h
        rw [List.dropLast_cons_of_ne_nil htne]
        exact List.mem_cons_self _ _
      rw [ih _ ?_, lookupA_eraseA_ne _ _ _ (fun e => hh e.symm)]
      intro u hu
      apply hfresh u
      rw [List.dropLast_cons_of_ne_nil htne]
      exact List.mem_cons_of_mem _ hu
    · rw [trimGlobal_cons, if_neg hc]

theorem trimGlobal_snd_none_mono (maxStored : Nat) (l : List Traffic)
    (m : List (String × Traffic)) (k : String) (h : lookupA m k = none) :
    lookupA (trimGlobal maxStored l m).2 k = none := by
  induction l generalizing m with
  | nil => simpa [trimGlobal] using h
  | cons h0 t ih =>
    by_cases hc : maxStored < (h0 :: t).length
    · rw [trimGlobal_cons, if_pos hc]
      apply ih
      rw [lookupA_eq_none_iff] at h ⊢
      intro hmem
      exact h ((keys_eraseA_sublist m h0.requestId).mem hmem)
    · rw [trimGlobal_cons, if_neg hc]
      exact h

theorem trimGlobal_evicted_purged (maxStored : Nat) (l : List Traffic)
    (m : List (String × Traffic)) (hm : (m.map Prod.fst).Nodup)
    (hl : (l.map Traffic.requestId).Nodup) :
    ∀ t ∈ l, t ∉ (trimGlobal maxStored l m).1 →
      lookupA (trimGlobal maxStored l m).2 t.requestId = none := by
  induction l generalizing m with
  | nil => simp
  | cons h0 tl ih =>
    simp only [List.map_cons, List.nodup_cons] at hl
    intro t ht hout
    by_cases hc : maxStored < (h0 :: tl).length
    · rw [trimGlobal_cons, if_pos hc] at hout ⊢
      rcases List.mem_cons.mp ht with ht1 | ht1
      · rw [ht1]
        apply trimGlobal_snd_none_mono
        exact lookupA_eraseA_self _ _ hm
      · exact ih _ (keys_eraseA_nodup _ _ hm) hl.2 t ht1 hout
    · rw [trimGlobal_cons, if_neg hc] at hout
      exact absurd ht hout

theorem trimTunnelList_length_le (maxStored : Nat) (l : List Traffic) :
    2 * (trimTunnelList maxStored l).length ≤ maxStored := by
  induction l with
  | nil => simp [trimTunnelList]
  | cons h t ih =>
    by_cases hc : maxStored < 2 * (h :: t).length
    · rw [trimTunnelList_cons, if_pos hc]
      exact ih
    · rw [trimTunnelList_cons, if_neg hc]
      show 2 * (h :: t).length ≤ maxStored
      omega

theorem trimTunnelList_suffix (maxStored : Nat) (l : List Traffic) :
    (trimTunnelList maxStored l).IsSuffix l := by
  induction l with
  | nil => simp [trimTunnelList]
  | cons h t ih =>
    by_cases hc : maxStored < 2 * (h :: t).length
    · rw [trimTunnelList_cons, if_pos hc]
      exact ih.trans (List.suffix_cons h t)
    · rw [trimTunnelList_cons, if_neg hc]

theorem lookupA_map_values {κ α β : Type} [DecidableEq κ] (m : List (κ × α))
    (g : α → β) (k : κ) :
    lookupA (m.map (fun p => (p.1, g p.2))) k = (lookupA m k).map g := by
  induction m with
  | nil => simp [lookupA]
  | cons p t ih =>
    obtain ⟨pk, pv⟩ := p
    by_cases h : pk = k
    · simp [lookupA, h]
    · simp [lookupA, h, ih]

/-- Request template used for the inspector counterexample and witness. -/
def reqData (rid tid : String) (ts : Nat) : RequestData :=
  { requestId := rid, tunnelId := tid, subdomain := "demo1", method := "GET",
    path := "/a", headers := [], body := none, query := "", timestamp := ts,
    clientIp := "127.0.0.1" }

/-- Inspector state with bound `N = 4` after recording three exchanges on the
same tunnel: the per-tunnel limit `⌊N/2⌋ = 2` has evicted the oldest. -/
def c4State : InspectorState :=
  recordRequest
    (recordRequest
      (recordRequest (initialInspectorState 4) (reqData "r1aaaaaaaaaaaaaa" "tun1" 1) 1)
      (reqData "r2aaaaaaaaaaaaaa" "tun1" 2) 2)
    (reqData "r3aaaaaaaaaaaaaa" "tun1" 3) 3

/-- C4 counterexample: with `N = 4`, after three inserts on one tunnel the
oldest exchange has been evicted from the per-tunnel buffer, yet it is still
present in the request-id lookup map (and in the global buffer): a per-tunnel
eviction does not purge the map, so the map does not match the buffers. -/
theorem c4_counterexample :
    (∀ t ∈ (lookupA c4State.trafficByTunnel "tun1").getD [],
        t.requestId ≠ "r1aaaaaaaaaaaaaa") ∧
      (lookupA c4State.trafficByRequestId "r1aaaaaaaaaaaaaa").isSome = true ∧
      (∃ t ∈ c4State.allTraffic, t.requestId = "r1aaaaaaaaaaaaaa") := by
  decide

/-- C4 amended: every insert enforces the bounds — the global buffer is
trimmed oldest-first to at most `N` and each per-tunnel buffer oldest-first to
at most `⌊N/2⌋` — and every exchange evicted from the GLOBAL buffer is removed
from the request-id map; exchanges evicted only from a per-tunnel buffer stay
in the map (and in the global buffer), as the counterexample shows. -/
theorem c4_amended_inspector_bounds (st : InspectorState) (req : RequestData) (now : Nat)
    (hmapnd : (st.trafficByRequestId.map Prod.fst).Nodup)
    (hidsnd : ((st.allTraffic ++ [Traffic.ofRequest req now]).map Traffic.requestId).Nodup) :
    (recordRequest st req now).allTraffic.length ≤ st.maxStoredRequests ∧
      (∀ p ∈ (recordRequest st req now).trafficByTunnel,
        p.2.length ≤ st.maxStoredRequests / 2) ∧
      (recordRequest st req now).allTraffic.IsSuffix
        (st.allTraffic ++ [Traffic.ofRequest req now]) ∧
      ((lookupA (recordRequest st req now).trafficByTunnel req.tunnelId).getD []).IsSuffix
        (((lookupA st.trafficByTunnel req.tunnelId).getD []) ++ [Traffic.ofRequest req now]) ∧
      (∀ t ∈ st.allTraffic ++ [Traffic.ofRequest req now],
        t ∉ (recordRequest st req now).allTraffic →
        lookupA (recordRequest st req now).trafficByRequestId t.requestId = none) := by
  refine ⟨?_, ?_, ?_, ?_, ?_⟩
  · exact trimGlobal_fst_length_le _ _ _
  · intro p hp
    simp only [recordRequest, enforceLimit, List.mem_map] at hp
    obtain ⟨q, hq, hqe⟩ := hp
    rw [← hqe]
    rw [Nat.le_div_iff_mul_le (by omega)]
    rw [Nat.mul_comm]
    exact trimTunnelList_length_le _ _
  · exact trimGlobal_fst_suffix _ _ _
  · have hbase : ∀ m0 : List (String × List Traffic),
        (lookupA (if (lookupA m0 req.tunnelId).isNone then
          insertA m0 req.tunnelId [] else m0) req.tunnelId).getD [] =
        (lookupA m0 req.tunnelId).getD [] := by
      intro m0
      rcases Option.eq_none_or_eq_some (lookupA m0 req.tunnelId) with hnone | ⟨l, hsome⟩
      · rw [hnone]
        simp only [Option.isNone_none, if_true, Option.getD_none]
        rw [lookupA_insertA_self]
        rfl
      · simp [hsome]
    show ((lookupA ((insertA (if (lookupA st.trafficByTunnel req.tunnelId).isNone then
        insertA st.trafficByTunnel req.tunnelId [] else st.trafficByTunnel) req.tunnelId
        (((lookupA (if (lookupA st.trafficByTunnel req.tunnelId).isNone then
          insertA st.trafficByTunnel req.tunnelId [] else st.trafficByTunnel)
          req.tunnelId).getD []) ++ [Traffic.ofRequest req now])).map
        (fun p => (p.1, trimTunnelList st.maxStoredRequests p.2))) req.tunnelId).getD
        []).IsSuffix _
    rw [lookupA_map_values, lookupA_insertA_self, hbase]
    exact trimTunnelList_suffix _ _
  · intro t ht hout
    refine trimGlobal_evicted_purged st.maxStoredRequests
      (st.allTraffic ++ [Traffic.ofRequest req now])
      (insertA st.trafficByRequestId req.requestId (Traffic.ofRequest req now))
      (keys_insertA_nodup _ _ _ hmapnd) hidsnd t ht hout

theorem c4_witness :
    ((initialInspectorState 4).trafficByRequestId.map Prod.fst).Nodup ∧
      (((initialInspectorState 4).allTraffic ++
        [Traffic.ofRequest (reqData "r1aaaaaaaaaaaaaa" "tun1" 1) 1]).map
          Traffic.requestId).Nodup ∧
      ((recordRequest (initialInspectorState 4) (reqData "r1aaaaaaaaaaaaaa" "tun1" 1)
          1).allTraffic.length ≤ (initialInspectorState 4).maxStoredRequests ∧
        (∀ p ∈ (recordRequest (initialInspectorState 4) (reqData "r1aaaaaaaaaaaaaa" "tun1" 1)
            1).trafficByTunnel,
          p.2.length ≤ (initialInspectorState 4).maxStoredRequests / 2) ∧
        (recordRequest (initialInspectorState 4) (reqData "r1aaaaaaaaaaaaaa" "tun1" 1)
          1).allTraffic.IsSuffix
          ((initialInspectorState 4).allTraffic ++
            [Traffic.ofRequest (reqData "r1aaaaaaaaaaaaaa" "tun1" 1) 1]) ∧
        ((lookupA (recordRequest (initialInspectorState 4) (reqData "r1aaaaaaaaaaaaaa" "tun1" 1)
            1).trafficByTunnel (reqData "r1aaaaaaaaaaaaaa" "tun1" 1).tunnelId).getD
            []).IsSuffix
          (((lookupA (initialInspectorState 4).trafficByTunnel
            (reqData "r1aaaaaaaaaaaaaa" "tun1" 1).tunnelId).getD []) ++
            [Traffic.ofRequest (reqData "r1aaaaaaaaaaaaaa" "tun1" 1) 1]) ∧
        (∀ t ∈ (initialInspectorState 4).allTraffic ++
            [Traffic.ofRequest (reqData "r1aaaaaaaaaaaaaa" "tun1" 1) 1],
          t ∉ (recordRequest (initialInspectorState 4) (reqData "r1aaaaaaaaaaaaaa" "tun1" 1)
            1).allTraffic →
          lookupA (recordRequest (initialInspectorState 4)
            (reqData "r1aaaaaaaaaaaaaa" "tun1" 1) 1).trafficByRequestId t.requestId =
            none)) :=
  ⟨by decide, by decide,
    c4_amended_inspector_bounds (initialInspectorState 4) (reqData "r1aaaaaaaaaaaaaa" "tun1" 1)
      1 (by decide) (by decide)⟩

/-- Captured exchange used to exercise the curl synthesis: POST with
sensitive and hop-suppressed headers and a body containing single quotes. -/
def trafficC7 : Traffic :=
  { requestId := "reqC7aaaaaaaaaaa", tunnelId := "tunC7aaaaaaa", subdomain := "demo1",
    reqMethod := "POST", reqPath := "/x",
    reqHeaders := [("content-type", "application/json"),
                   ("authorization", "Bearer s3cret"),
                   ("Host", "demo1.example.com"),
                   ("content-length", "7")],
    reqBody := some "a=1&b='2'", reqQuery := "", reqTimestamp := 5,
    clientIp := "1.2.3.4", createdAt := 5 }

/-- C7 counterexample: for a gateway configured with public domain
`mydomain.io`, the synthesized curl differs from the spec's synthesis using
that configured domain — the source hard-codes `example.com` in the URL —
while it coincides with the spec's synthesis exactly when the domain
parameter is the literal `example.com`. -/
theorem c7_counterexample :
    toCurl trafficC7 ≠ toCurlSpec "mydomain.io" trafficC7 ∧
      toCurl trafficC7 = toCurlSpec "example.com" trafficC7 := by
  refine ⟨by decide, by decide⟩

/-- C7 amended: the synthesized curl command omits the `host` and
`content-length` headers, escapes single quotes in the body as the four
characters quote-backslash-quote-quote, emits `-X METHOD` exactly when the
method is not GET, emits `-d` exactly when a (truthy) body is present, and
targets `https://<subdomain>.<domain><path>` for the hard-coded domain
`example.com` rather than a configured public domain. -/
theorem c7_amended_curl_synthesis (tr : Traffic) (publicDomain : String)
    (hd : publicDomain = "example.com") :
    toCurl tr = toCurlSpec publicDomain tr := by
  subst hd
  have hdata : ∀ a b : String, (a ++ b).data = a.data ++ b.data := by
    intro a b
    cases a
    cases b
    rfl
  have hassoc : ∀ a b c : String, a ++ b ++ c = a ++ (b ++ c) := by
    intro a b c
    apply String.ext
    rw [hdata, hdata, hdata, hdata, List.append_assoc]
  have hde : ("." : String) ++ "example.com" = ".example.com" := by decide
  have hdom : ∀ sub path : String,
      "https://" ++ sub ++ "." ++ "example.com" ++ path =
        "https://" ++ sub ++ ".example.com" ++ path := by
    intro sub path
    rw [hassoc ("https://" ++ sub) "." "example.com", hde]
  unfold toCurl toCurlSpec
  by_cases hm : tr.reqMethod = "GET"
  · match hb : tr.reqBody with
    | none => simp [hm, hb, List.append_assoc, hdom]
    | some b =>
      by_cases hbe : b = ""
      · simp [hm, hb, hbe, List.append_assoc, hdom]
      · simp [hm, hb, hbe, List.append_assoc, hdom]
  · match hb : tr.reqBody with
    | none => simp [hm, hb, List.append_assoc, hdom]
    | some b =>
      by_cases hbe : b = ""
      · simp [hm, hb, hbe, List.append_assoc, hdom]
      · simp [hm, hb, hbe, List.append_assoc, hdom]

theorem c7_witness :
    ("example.com" : String) = "example.com" ∧
      toCurl trafficC7 = toCurlSpec "example.com" trafficC7 :=
  ⟨rfl, c7_amended_curl_synthesis trafficC7 "example.com" rfl⟩

/-- Lookup of the recorded exchange after the request and its response (or
error) have both been recorded: the exchange carries the response fields. -/
theorem record_roundtrip (insp : InspectorState) (req : RequestData) (now : Nat)
    (resp : ResponseData) (hid : resp.requestId = req.requestId)
    (hmax : 1 ≤ insp.maxStoredRequests)
    (hfresh : ∀ t ∈ insp.allTraffic, t.requestId ≠ req.requestId) :
    lookupA (recordResponse (recordRequest insp req now) resp).trafficByRequestId
      req.requestId = some ((Traffic.ofRequest req now).setResponse resp) := by
  have hlook1 : lookupA (recordRequest insp req now).trafficByRequestId req.requestId =
      some (Traffic.ofRequest req now) := by
    show lookupA (trimGlobal insp.maxStoredRequests
      (insp.allTraffic ++ [Traffic.ofRequest req now])
      (insertA insp.trafficByRequestId req.requestId (Traffic.ofRequest req now))).2
      req.requestId = _
    rw [trimGlobal_snd_lookup_preserved _ _ _ _ hmax ?hf, lookupA_insertA_self]
    case hf =>
      rw [List.dropLast_concat]
      exact hfresh
  rw [show recordResponse (recordRequest insp req now) resp =
    { recordRequest insp req now with
      trafficByRequestId := insertA (recordRequest insp req now).trafficByRequestId
        resp.requestId ((Traffic.ofRequest req now).setResponse resp),
      allTraffic := (recordRequest insp req now).allTraffic.map
        (fun t => if t.requestId = resp.requestId then
          (Traffic.ofRequest req now).setResponse resp else t),
      trafficByTunnel := (recordRequest insp req now).trafficByTunnel.map
        (fun p => (p.1, p.2.map (fun t => if t.requestId = resp.requestId then
          (Traffic.ofRequest req now).setResponse resp else t))) }
    from by rw [recordResponse, hid, hlook1]]
  rw [← hid]
  exact lookupA_insertA_self _ _ _

/-- Tunnel used by the forwarder counterexample and witness. -/
def tunnelC5 : Tunnel := Tunnel.mk "tunC5aaaaaaa" "demo1" 0 8080 0 0 0 []

/-- C5 counterexample: on an error outcome — here the agent error `"boom"`
and likewise the timeout — the forwarder leaves the tunnel's byte counters
and request count untouched even though the request carried a 5-byte body,
contradicting the claim that all three terminal outcomes update the
counters with the inbound body length. -/
theorem c5_counterexample :
    byteLen "hello" = 5 ∧
      (forwardRequest tunnelC5 (initialInspectorState 1000) "req1aaaaaaaaaaaa" "POST" "/x"
          [] (some "hello") "" "1.2.3.4" 100 250
          (ForwardOutcome.failure "boom")).tunnel.bytesIn = 0 ∧
      (forwardRequest tunnelC5 (initialInspectorState 1000) "req1aaaaaaaaaaaa" "POST" "/x"
          [] (some "hello") "" "1.2.3.4" 100 250
          (ForwardOutcome.failure "boom")).tunnel.requestCount = 0 ∧
      (forwardRequest tunnelC5 (initialInspectorState 1000) "req1aaaaaaaaaaaa" "POST" "/x"
          [] (some "hello") "" "1.2.3.4" 100 250
          (ForwardOutcome.failure "Request timeout")).tunnel.bytesIn = 0 ∧
      (forwardRequest tunnelC5 (initialInspectorState 1000) "req1aaaaaaaaaaaa" "POST" "/x"
          [] (some "hello") "" "1.2.3.4" 100 250
          (ForwardOutcome.response 200 [] none)).tunnel.bytesIn = 5 := by
  decide

theorem erase_append_singleton (l : List String) (a : String) (h : a ∉ l) :
    (l ++ [a]).erase a = l := by
  induction l with
  | nil => simp
  | cons x xs ih =>
    simp only [List.mem_cons] at h
    push_neg at h
    have hx : ¬ (x == a) = true := by
      simp only [beq_iff_eq]
      exact fun e => h.1 e.symm
    rw [List.cons_append, List.erase_cons, if_neg hx, ih h.2]

/-- C5 amended: in all three terminal outcomes the forwarder records the
response or error in the inspector together with the measured elapsed time
and leaves the pending table without an entry for the request id; the
tunnel's byte counters and request count, however, are updated — with the
inbound body length and the decoded response length — only in the response
outcome, and stay untouched on error and timeout. -/
theorem c5_amended_forward_outcomes (tunnel : Tunnel) (insp : InspectorState)
    (requestId method path : String) (headers : List (String × String))
    (rawBody : Option String) (query clientIp : String) (now responseTime : Nat)
    (outcome : ForwardOutcome) (fr : ForwardResult)
    (hmax : 1 ≤ insp.maxStoredRequests)
    (hfresh : ∀ t ∈ insp.allTraffic, t.requestId ≠ requestId)
    (hpend : requestId ∉ tunnel.pendingRequests)
    (hfr : fr = forwardRequest tunnel insp requestId method path headers rawBody query
      clientIp now responseTime outcome) :
    fr.tunnel.pendingRequests = tunnel.pendingRequests ∧
      requestId ∉ fr.tunnel.pendingRequests ∧
      (∃ tr, lookupA fr.inspector.trafficByRequestId requestId = some tr ∧
        tr.responseTime = some responseTime ∧
        (match outcome with
         | ForwardOutcome.response sc _ _ => tr.respStatus = some sc ∧ tr.respError = none
         | ForwardOutcome.failure msg => tr.respStatus = some 502 ∧
             tr.respError = some msg)) ∧
      (match outcome with
       | ForwardOutcome.response sc _ rbody =>
           fr.tunnel.requestCount = tunnel.requestCount + 1 ∧
           fr.tunnel.bytesIn = tunnel.bytesIn + ((truthyBody rawBody).map byteLen).getD 0 ∧
           fr.tunnel.bytesOut = tunnel.bytesOut + (rbody.map List.length).getD 0 ∧
           fr.httpStatus = sc ∧ fr.httpCode = none
       | ForwardOutcome.failure msg =>
           fr.tunnel.requestCount = tunnel.requestCount ∧
           fr.tunnel.bytesIn = tunnel.bytesIn ∧
           fr.tunnel.bytesOut = tunnel.bytesOut ∧
           (msg = "Request timeout" → fr.httpStatus = 504 ∧
             fr.httpCode = some errRequestTimeout) ∧
           (msg ≠ "Request timeout" → fr.httpStatus = 502 ∧
             fr.httpCode = some errRequestFailed)) := by
  subst hfr
  have haddT : tunnel.addPending requestId =
      { tunnel with pendingRequests := tunnel.pendingRequests ++ [requestId] } := by
    unfold Tunnel.addPending
    rw [if_neg hpend]
  have herase : (tunnel.pendingRequests ++ [requestId]).erase requestId =
      tunnel.pendingRequests := erase_append_singleton _ _ hpend
  cases outcome with
  | response sc hs rbody =>
    simp only [forwardRequest, haddT, Tunnel.removePending, Tunnel.recordRequestStats]
    refine ⟨herase, by rw [herase]; exact hpend,
      ⟨_, record_roundtrip insp _ now _ rfl hmax hfresh, ?_⟩, ?_⟩ <;>
      simp [Traffic.setResponse, Traffic.ofRequest]
  | failure msg =>
    simp only [forwardRequest, haddT, Tunnel.removePending, Tunnel.recordRequestStats]
    by_cases hmsg : msg = "Request timeout"
    · rw [if_pos hmsg]
      refine ⟨herase, by rw [herase]; exact hpend,
        ⟨_, record_roundtrip insp _ now _ rfl hmax hfresh, ?_⟩, ?_⟩ <;>
        simp [hmsg, Traffic.setResponse, Traffic.ofRequest]
    · rw [if_neg hmsg]
      refine ⟨herase, by rw [herase]; exact hpend,
        ⟨_, record_roundtrip insp _ now _ rfl hmax hfresh, ?_⟩, ?_⟩ <;>
        simp [hmsg, Traffic.setResponse, Traffic.ofRequest]

theorem c5_witness :
    1 ≤ (initialInspectorState 1000).maxStoredRequests ∧
      (∀ t ∈ (initialInspectorState 1000).allTraffic, t.requestId ≠ "req1aaaaaaaaaaaa") ∧
      "req1aaaaaaaaaaaa" ∉ tunnelC5.pendingRequests ∧
      ((forwardRequest tunnelC5 (initialInspectorState 1000) "req1aaaaaaaaaaaa" "GET"
          "/ping" [] (some "hi") "" "9.9.9.9" 100 42
          (ForwardOutcome.response 200 [("content-type", "text/plain")]
            (some [112, 111, 110, 103]))).tunnel.pendingRequests =
          tunnelC5.pendingRequests ∧
        "req1aaaaaaaaaaaa" ∉ (forwardRequest tunnelC5 (initialInspectorState 1000)
          "req1aaaaaaaaaaaa" "GET" "/ping" [] (some "hi") "" "9.9.9.9" 100 42
          (ForwardOutcome.response 200 [("content-type", "text/plain")]
            (some [112, 111, 110, 103]))).tunnel.pendingRequests ∧
        (∃ tr, lookupA (forwardRequest tunnelC5 (initialInspectorState 1000)
            "req1aaaaaaaaaaaa" "GET" "/ping" [] (some "hi") "" "9.9.9.9" 100 42
            (ForwardOutcome.response 200 [("content-type", "text/plain")]
              (some [112, 111, 110, 103]))).inspector.trafficByRequestId
            "req1aaaaaaaaaaaa" = some tr ∧
          tr.responseTime = some 42 ∧ (tr.respStatus = some 200 ∧ tr.respError = none)) ∧
        ((forwardRequest tunnelC5 (initialInspectorState 1000) "req1aaaaaaaaaaaa" "GET"
            "/ping" [] (some "hi") "" "9.9.9.9" 100 42
            (ForwardOutcome.response 200 [("content-type", "text/plain")]
              (some [112, 111, 110, 103]))).tunnel.requestCount =
            tunnelC5.requestCount + 1 ∧
          (forwardRequest tunnelC5 (initialInspectorState 1000) "req1aaaaaaaaaaaa" "GET"
            "/ping" [] (some "hi") "" "9.9.9.9" 100 42
            (ForwardOutcome.response 200 [("content-type", "text/plain")]
              (some [112, 111, 110, 103]))).tunnel.bytesIn =
            tunnelC5.bytesIn + ((truthyBody (some "hi")).map byteLen).getD 0 ∧
          (forwardRequest tunnelC5 (initialInspectorState 1000) "req1aaaaaaaaaaaa" "GET"
            "/ping" [] (some "hi") "" "9.9.9.9" 100 42
            (ForwardOutcome.response 200 [("content-type", "text/plain")]
              (some [112, 111, 110, 103]))).tunnel.bytesOut =
            tunnelC5.bytesOut +
              (((some [112, 111, 110, 103] : Option (List Nat)).map List.length).getD 0) ∧
          (forwardRequest tunnelC5 (initialInspectorState 1000) "req1aaaaaaaaaaaa" "GET"
            "/ping" [] (some "hi") "" "9.9.9.9" 100 42
            (ForwardOutcome.response 200 [("content-type", "text/plain")]
              (some [112, 111, 110, 103]))).httpStatus = 200 ∧
          (forwardRequest tunnelC5 (initialInspectorState 1000) "req1aaaaaaaaaaaa" "GET"
            "/ping" [] (some "hi") "" "9.9.9.9" 100 42
            (ForwardOutcome.response 200 [("content-type", "text/plain")]
              (some [112, 111, 110, 103]))).httpCode = none)) :=
  ⟨by decide, by decide, by decide,
    c5_amended_forward_outcomes tunnelC5 (initialInspectorState 1000) "req1aaaaaaaaaaaa"
      "GET" "/ping" [] (some "hi") "" "9.9.9.9" 100 42
      (ForwardOutcome.response 200 [("content-type", "text/plain")]
        (some [112, 111, 110, 103])) _ (by decide) (by decide) (by decide) rfl⟩

end DevTunnel
